import Mathlib

/-!
# Controller recording / playback (`recording.h`, `recording.cpp`)

A shallow embedding of the record / replay engine of the robot program:
the 16-byte frame format, the 25-byte header, the capture buffer and its
flush, the file loader of `begin_playback`, the replay loop with its
virtual controller, and the two stop functions.

Conventions of the embedding
* a `signed char` / `int8_t` value is an `Int` in `[-128, 127]`;
* a byte of a file or of a `char` buffer is a `Nat` (its value as
  `unsigned char`, i.e. its bit pattern);
* a `double` is its 64-bit pattern, a `Nat` below `2 ^ 64`; the program
  only stores and loads doubles, it never computes with them;
* `uint32_t` arithmetic is `Nat` arithmetic modulo `2 ^ 32`;
* the global variables of `recording.h` are the fields of `State`.
-/

namespace Recording

/-! ## Machine integers -/

/-- Conversion of an integer value to `signed char` (`int8_t`): two's
complement wrap-around into `[-128, 127]`. -/
def toInt8 (v : Int) : Int := (v + 128) % 256 - 128

/-- Predicate: `v` is a value of type `signed char`. -/
def isInt8 (v : Int) : Prop := -128 ≤ v ∧ v ≤ 127

instance (v : Int) : Decidable (isInt8 v) := by
  unfold isInt8; infer_instance

/-- The byte stored in memory for a `signed char`: what
`(const char*)&capture.axis[i]` points at. -/
def byteOfInt8 (v : Int) : Nat := (v % 256).toNat

/-- The cast `(signed char) raw[j]` applied to a byte of a `char` buffer. -/
def signedCharOfByte (b : Nat) : Int := toInt8 (b : Int)

/-! ## Data model (`recording.h`) -/

/-- The struct `ControllerData`: `signed char axis[4]; signed char digital[12];`.
The arrays are lists; `ControllerData.isInt8` states their lengths and the
range of their elements. -/
structure ControllerData where
  axis : List Int
  digital : List Int
  deriving DecidableEq, Repr

/-- Array access `a[i]` in an array of `signed char`. -/
def at_index (a : List Int) (i : Nat) : Int := a.getD i 0

/-- The frame is a value of the C type: `axis` has 4 and `digital` has 12
elements, each a `signed char` value. -/
def ControllerData.isInt8 (f : ControllerData) : Prop :=
  f.axis.length = 4 ∧ f.digital.length = 12 ∧
  (∀ v ∈ f.axis, Recording.isInt8 v) ∧ (∀ v ∈ f.digital, Recording.isInt8 v)

instance (f : ControllerData) : Decidable f.isInt8 := by
  unfold ControllerData.isInt8; infer_instance

/-! ## Frame bytes -/

/-- Body of the outer loop of `flush_recording_buffer`: the 16 one-byte
writes issued for one buffered frame, `axis[0..3]` then `digital[0..11]`. -/
def frame_bytes (capture : ControllerData) : List Nat :=
  (List.range 4).map (fun i => byteOfInt8 (at_index capture.axis i)) ++
  (List.range 12).map (fun i => byteOfInt8 (at_index capture.digital i))

/-- The conversion of a 16-byte buffer `raw` into a `ControllerData` made
by `begin_playback` (`recording.cpp` lines 236-239). -/
def chunk_to_ControllerData (raw : List Nat) : ControllerData where
  axis := [signedCharOfByte (raw.getD 0 0), signedCharOfByte (raw.getD 1 0),
           signedCharOfByte (raw.getD 2 0), signedCharOfByte (raw.getD 3 0)]
  digital := [signedCharOfByte (raw.getD 4 0), signedCharOfByte (raw.getD 5 0),
              signedCharOfByte (raw.getD 6 0), signedCharOfByte (raw.getD 7 0),
              signedCharOfByte (raw.getD 8 0), signedCharOfByte (raw.getD 9 0),
              signedCharOfByte (raw.getD 10 0), signedCharOfByte (raw.getD 11 0),
              signedCharOfByte (raw.getD 12 0), signedCharOfByte (raw.getD 13 0),
              signedCharOfByte (raw.getD 14 0), signedCharOfByte (raw.getD 15 0)]

/-! ## Doubles -/

/-- The 8 bytes of the object representation of a `double` with bit pattern
`x`, in memory order (least significant byte first on the target):
what `write((const char *)&gps_x, sizeof(double))` sends to the stream. -/
def bytes_of_double (x : Nat) : List Nat :=
  List.ofFn (fun i : Fin 8 => x / 256 ^ i.val % 256)

/-- The bit pattern of the `double` whose 8 bytes of storage are `bs`:
the value of `posX` after `read((char*)&posX, sizeof(double))` stored `bs`. -/
def double_of_bytes (bs : List Nat) : Nat :=
  (List.range 8).foldr (fun i acc => bs.getD i 0 % 256 * 256 ^ i + acc) 0

/-- The class `pros::Gps` as far as `start_recording` uses it: the three
doubles returned by `get_position_x`, `get_position_y`, `get_heading`. -/
structure Gps where
  get_position_x : Nat
  get_position_y : Nat
  get_heading : Nat
  deriving DecidableEq, Repr

/-- The struct `PositionData` of `recording.h`. -/
structure PositionData where
  positionX : Nat
  positionY : Nat
  heading : Nat
  deriving DecidableEq, Repr

/-! ## Streams -/

/-- The `std::ofstream` `recording_output_stream`: whether a file is
attached, its error bits, and the bytes of the attached file. -/
structure OFStream where
  is_open : Bool
  failbit : Bool
  badbit : Bool
  file : List Nat
  deriving DecidableEq, Repr

/-- Result of `ofstream::open(path, ios::binary)`.  `ok` tells whether the
file system can create the file.  Opening a stream that is already open
fails and sets `failbit`; a successful open clears the error bits and
truncates the file; an unsuccessful one sets `failbit`. -/
def OFStream.open (o : OFStream) (ok : Bool) : OFStream :=
  if o.is_open then { o with failbit := true }
  else if ok then { is_open := true, failbit := false, badbit := false, file := [] }
  else { o with failbit := true }

/-- One call of `ostream::write(p, n)` sending the bytes `data`: when an
error bit is set nothing is written and the sentry sets `failbit`; on a
stream without file the write fails and sets `badbit`; otherwise the bytes
are appended to the file. -/
def OFStream.write (o : OFStream) (data : List Nat) : OFStream :=
  if o.failbit || o.badbit then { o with failbit := true }
  else if o.is_open then { o with file := o.file ++ data }
  else { o with badbit := true }

/-- Result of `ofstream::close()`: detaches the file; on a stream without
file it sets `failbit`. -/
def OFStream.close (o : OFStream) : OFStream :=
  if o.is_open then { o with is_open := false } else { o with failbit := true }

/-- A local `std::ifstream`: whether a file is attached, the bytes not yet
read, and the state bits `eofbit` and `failbit`. -/
structure IFStream where
  is_open : Bool
  rest : List Nat
  eofbit : Bool
  failbit : Bool
  deriving DecidableEq, Repr

/-- A freshly constructed `ifstream` after `open(path, ios::binary)`;
`file` is the content of the file, `none` when it cannot be opened. -/
def IFStream.open (file : Option (List Nat)) : IFStream :=
  match file with
  | some bs => { is_open := true, rest := bs, eofbit := false, failbit := false }
  | none => { is_open := false, rest := [], eofbit := false, failbit := true }

/-- One call of `istream::read(dest, n)`; `dest` is the content of the
destination storage before the call and the second component its content
after the call.  With a state bit set nothing is read.  When fewer than `n`
bytes are left, those are stored at the front of the destination, the rest
of it keeps its old content, and `eofbit` and `failbit` are set.  A read
that takes exactly the last bytes of the file does not set `eofbit`. -/
def IFStream.read (i : IFStream) (n : Nat) (dest : List Nat) : IFStream × List Nat :=
  if i.eofbit || i.failbit then ({ i with failbit := true }, dest)
  else if n ≤ i.rest.length then ({ i with rest := i.rest.drop n }, i.rest.take n)
  else ({ i with rest := [], eofbit := true, failbit := true },
        i.rest ++ dest.drop i.rest.length)

/-! ## The virtual controller -/

/-- Enumeration `controller_analog_e_t` of the PROS API (the four joystick
channels named in `recording.cpp`). -/
inductive controller_analog_e_t where
  | E_CONTROLLER_ANALOG_LEFT_X
  | E_CONTROLLER_ANALOG_LEFT_Y
  | E_CONTROLLER_ANALOG_RIGHT_X
  | E_CONTROLLER_ANALOG_RIGHT_Y
  deriving DecidableEq, Repr

/-- Enumeration `controller_digital_e_t` of the PROS API (the twelve
buttons named in `recording.cpp`). -/
inductive controller_digital_e_t where
  | E_CONTROLLER_DIGITAL_L1
  | E_CONTROLLER_DIGITAL_L2
  | E_CONTROLLER_DIGITAL_R1
  | E_CONTROLLER_DIGITAL_R2
  | E_CONTROLLER_DIGITAL_UP
  | E_CONTROLLER_DIGITAL_DOWN
  | E_CONTROLLER_DIGITAL_LEFT
  | E_CONTROLLER_DIGITAL_RIGHT
  | E_CONTROLLER_DIGITAL_X
  | E_CONTROLLER_DIGITAL_B
  | E_CONTROLLER_DIGITAL_Y
  | E_CONTROLLER_DIGITAL_A
  deriving DecidableEq, Repr

open controller_analog_e_t controller_digital_e_t

/-- Class `virtual_controller_axis`. -/
structure virtual_controller_axis where
  position_value : Int := 0
  deriving DecidableEq, Repr

/-- Class `virtual_controller_digital`. -/
structure virtual_controller_digital where
  pressing_value : Int := 0
  deriving DecidableEq, Repr

/-- Method `virtual_controller_axis::position`. -/
def virtual_controller_axis.position (a : virtual_controller_axis) : Int :=
  a.position_value

/-- Method `virtual_controller_digital::pressing`: the `signed char`
converted to `bool`. -/
def virtual_controller_digital.pressing (d : virtual_controller_digital) : Bool :=
  d.pressing_value != 0

/-- Class `virtual_controller`; a default-constructed object has every
value 0. -/
structure virtual_controller where
  PrevButtonA : virtual_controller_digital := {}
  PrevButtonB : virtual_controller_digital := {}
  PrevButtonX : virtual_controller_digital := {}
  PrevButtonY : virtual_controller_digital := {}
  PrevButtonUp : virtual_controller_digital := {}
  PrevButtonDown : virtual_controller_digital := {}
  PrevButtonLeft : virtual_controller_digital := {}
  PrevButtonRight : virtual_controller_digital := {}
  PrevButtonL1 : virtual_controller_digital := {}
  PrevButtonL2 : virtual_controller_digital := {}
  PrevButtonR1 : virtual_controller_digital := {}
  PrevButtonR2 : virtual_controller_digital := {}
  Axis1 : virtual_controller_axis := {}
  Axis2 : virtual_controller_axis := {}
  Axis3 : virtual_controller_axis := {}
  Axis4 : virtual_controller_axis := {}
  ButtonA : virtual_controller_digital := {}
  ButtonB : virtual_controller_digital := {}
  ButtonX : virtual_controller_digital := {}
  ButtonY : virtual_controller_digital := {}
  ButtonUp : virtual_controller_digital := {}
  ButtonDown : virtual_controller_digital := {}
  ButtonLeft : virtual_controller_digital := {}
  ButtonRight : virtual_controller_digital := {}
  ButtonL1 : virtual_controller_digital := {}
  ButtonL2 : virtual_controller_digital := {}
  ButtonR1 : virtual_controller_digital := {}
  ButtonR2 : virtual_controller_digital := {}
  deriving DecidableEq, Repr

/-- Conversion of a `bool` to the `int32_t` return value. -/
def int_of_bool (b : Bool) : Int := if b then 1 else 0

/-- Method `virtual_controller::get_analog`. -/
def virtual_controller.get_analog (c : virtual_controller)
    (channel : controller_analog_e_t) : Int :=
  match channel with
  | E_CONTROLLER_ANALOG_RIGHT_X => c.Axis1.position
  | E_CONTROLLER_ANALOG_RIGHT_Y => c.Axis2.position
  | E_CONTROLLER_ANALOG_LEFT_Y => c.Axis3.position
  | E_CONTROLLER_ANALOG_LEFT_X => c.Axis4.position

/-- Method `virtual_controller::get_digital`. -/
def virtual_controller.get_digital (c : virtual_controller)
    (button : controller_digital_e_t) : Int :=
  match button with
  | E_CONTROLLER_DIGITAL_A => int_of_bool c.ButtonA.pressing
  | E_CONTROLLER_DIGITAL_B => int_of_bool c.ButtonB.pressing
  | E_CONTROLLER_DIGITAL_X => int_of_bool c.ButtonX.pressing
  | E_CONTROLLER_DIGITAL_Y => int_of_bool c.ButtonY.pressing
  | E_CONTROLLER_DIGITAL_UP => int_of_bool c.ButtonUp.pressing
  | E_CONTROLLER_DIGITAL_DOWN => int_of_bool c.ButtonDown.pressing
  | E_CONTROLLER_DIGITAL_LEFT => int_of_bool c.ButtonLeft.pressing
  | E_CONTROLLER_DIGITAL_RIGHT => int_of_bool c.ButtonRight.pressing
  | E_CONTROLLER_DIGITAL_L1 => int_of_bool c.ButtonL1.pressing
  | E_CONTROLLER_DIGITAL_L2 => int_of_bool c.ButtonL2.pressing
  | E_CONTROLLER_DIGITAL_R1 => int_of_bool c.ButtonR1.pressing
  | E_CONTROLLER_DIGITAL_R2 => int_of_bool c.ButtonR2.pressing

/-- Method `virtual_controller::get_digital_new_press`. -/
def virtual_controller.get_digital_new_press (c : virtual_controller)
    (button : controller_digital_e_t) : Int :=
  match button with
  | E_CONTROLLER_DIGITAL_A => int_of_bool (c.ButtonA.pressing && !c.PrevButtonA.pressing)
  | E_CONTROLLER_DIGITAL_B => int_of_bool (c.ButtonB.pressing && !c.PrevButtonB.pressing)
  | E_CONTROLLER_DIGITAL_X => int_of_bool (c.ButtonX.pressing && !c.PrevButtonX.pressing)
  | E_CONTROLLER_DIGITAL_Y => int_of_bool (c.ButtonY.pressing && !c.PrevButtonY.pressing)
  | E_CONTROLLER_DIGITAL_UP => int_of_bool (c.ButtonUp.pressing && !c.PrevButtonUp.pressing)
  | E_CONTROLLER_DIGITAL_DOWN =>
      int_of_bool (c.ButtonDown.pressing && !c.PrevButtonDown.pressing)
  | E_CONTROLLER_DIGITAL_LEFT =>
      int_of_bool (c.ButtonLeft.pressing && !c.PrevButtonLeft.pressing)
  | E_CONTROLLER_DIGITAL_RIGHT =>
      int_of_bool (c.ButtonRight.pressing && !c.PrevButtonRight.pressing)
  | E_CONTROLLER_DIGITAL_L1 => int_of_bool (c.ButtonL1.pressing && !c.PrevButtonL1.pressing)
  | E_CONTROLLER_DIGITAL_L2 => int_of_bool (c.ButtonL2.pressing && !c.PrevButtonL2.pressing)
  | E_CONTROLLER_DIGITAL_R1 => int_of_bool (c.ButtonR1.pressing && !c.PrevButtonR1.pressing)
  | E_CONTROLLER_DIGITAL_R2 => int_of_bool (c.ButtonR2.pressing && !c.PrevButtonR2.pressing)

/-- Method `virtual_controller::copy_old` (`recording.cpp` lines 425-439);
the last assignment reads `ButtonL2`, as in the source. -/
def virtual_controller.copy_old (c : virtual_controller) : virtual_controller :=
  { c with
    PrevButtonA := c.ButtonA
    PrevButtonB := c.ButtonB
    PrevButtonX := c.ButtonX
    PrevButtonY := c.ButtonY
    PrevButtonUp := c.ButtonUp
    PrevButtonRight := c.ButtonRight
    PrevButtonDown := c.ButtonDown
    PrevButtonLeft := c.ButtonLeft
    PrevButtonL1 := c.ButtonL1
    PrevButtonL2 := c.ButtonL2
    PrevButtonR1 := c.ButtonR1
    PrevButtonR2 := c.ButtonL2 }

/-! ## Global state -/

/-- The pointer `playback_controller`: null, pointing at a live object, or
dangling after `delete` (the content the object had when it was deleted is
kept for reference). -/
inductive ControllerPtr where
  | null
  | live (c : virtual_controller)
  | deleted (c : virtual_controller)
  deriving DecidableEq, Repr

/-- The task functions handed to `rtos::Task`. -/
inductive TaskFn where
  | recording_thread
  | playback_thread
  deriving DecidableEq, Repr

/-- The global variables of `recording.h`, and the list of tasks created so
far by `rtos::Task` constructors (most recent first). -/
structure State where
  recording_output_stream : OFStream
  recording_buffer : List ControllerData
  max_recording_time : Nat
  playback_controller : ControllerPtr
  playback_buffer : List ControllerData
  stop_system : Bool
  tasks : List TaskFn
  deriving DecidableEq

/-- The state at program start: static initialisation of the globals. -/
def State.initial : State where
  recording_output_stream := { is_open := false, failbit := false, badbit := false, file := [] }
  recording_buffer := []
  max_recording_time := 0
  playback_controller := ControllerPtr.null
  playback_buffer := []
  stop_system := false
  tasks := []

/-! ## Recording: start, capture, flush, stop -/

/-- The bit patterns `start_recording` writes for the position: those of
`0.0` when `gps == nullptr`, else the three readings of the sensor. -/
def gps_reading (gps : Option Gps) : Nat × Nat × Nat :=
  match gps with
  | none => (0, 0, 0)
  | some g => (g.get_position_x, g.get_position_y, g.get_heading)

/-- Function `start_recording(filename, length, gps)`.  `usd_installed` is
the result of `usd::is_installed()`, `controller_connected` that of
`controller_is_connected(E_CONTROLLER_MASTER)`, `open_ok` tells whether the
file system can create the file; `length` is converted to `uint8_t`. -/
def start_recording (usd_installed controller_connected open_ok : Bool)
    (length : Nat) (gps : Option Gps) (s : State) : State :=
  let length := length % 256
  if !usd_installed then s
  else if !controller_connected then s
  else
    let s1 := { s with recording_output_stream := s.recording_output_stream.open open_ok }
    if !s1.recording_output_stream.is_open || s1.recording_output_stream.badbit then s1
    else
      let o := s1.recording_output_stream.write [length]
      let o := o.write (bytes_of_double (gps_reading gps).1)
      let o := o.write (bytes_of_double (gps_reading gps).2.1)
      let o := o.write (bytes_of_double (gps_reading gps).2.2)
      { s1 with
        max_recording_time := length
        recording_buffer := []
        recording_output_stream := o
        stop_system := false
        tasks := TaskFn.recording_thread :: s1.tasks }

/-- What the physical controller reports at one moment: the `int32_t`
results of `controller_get_analog` and `controller_get_digital`. -/
structure Controller where
  analog : controller_analog_e_t → Int
  digital : controller_digital_e_t → Int

/-- The frame built by `capture_controller` from the controller readings. -/
def capture_data (ctl : Controller) : ControllerData where
  axis := [toInt8 (ctl.analog E_CONTROLLER_ANALOG_RIGHT_X),
            toInt8 (ctl.analog E_CONTROLLER_ANALOG_RIGHT_Y),
            toInt8 (ctl.analog E_CONTROLLER_ANALOG_LEFT_Y),
            toInt8 (ctl.analog E_CONTROLLER_ANALOG_LEFT_X)]
  digital := [toInt8 (ctl.digital E_CONTROLLER_DIGITAL_A),
               toInt8 (ctl.digital E_CONTROLLER_DIGITAL_B),
               toInt8 (ctl.digital E_CONTROLLER_DIGITAL_X),
               toInt8 (ctl.digital E_CONTROLLER_DIGITAL_Y),
               toInt8 (ctl.digital E_CONTROLLER_DIGITAL_UP),
               toInt8 (ctl.digital E_CONTROLLER_DIGITAL_RIGHT),
               toInt8 (ctl.digital E_CONTROLLER_DIGITAL_DOWN),
               toInt8 (ctl.digital E_CONTROLLER_DIGITAL_LEFT),
               toInt8 (ctl.digital E_CONTROLLER_DIGITAL_L1),
               toInt8 (ctl.digital E_CONTROLLER_DIGITAL_L2),
               toInt8 (ctl.digital E_CONTROLLER_DIGITAL_R1),
               toInt8 (ctl.digital E_CONTROLLER_DIGITAL_R2)]

/-- Function `capture_controller`: appends the captured frame to
`recording_buffer`. -/
def capture_controller (ctl : Controller) (s : State) : State :=
  { s with recording_buffer := s.recording_buffer ++ [capture_data ctl] }

/-- The writes of `flush_recording_buffer` on the stream: for every
buffered frame, in order, sixteen one-byte `write` calls. -/
def write_frames (o : OFStream) (buffer : List ControllerData) : OFStream :=
  buffer.foldl (fun o capture => (frame_bytes capture).foldl (fun o b => o.write [b]) o) o

/-- Function `flush_recording_buffer`.  The call of `flush()` at the end
does not change the bytes of the file, which already hold every byte
written. -/
def flush_recording_buffer (s : State) : State :=
  { s with
    recording_output_stream := write_frames s.recording_output_stream s.recording_buffer
    recording_buffer := [] }

/-- Function `stop_recording`. -/
def stop_recording (s : State) : State :=
  if s.stop_system then { s with stop_system := false }
  else
    let s1 := flush_recording_buffer { s with stop_system := true }
    { s1 with recording_output_stream := s1.recording_output_stream.close }

/-! ## The recording loop -/

/-- What the environment supplies to one iteration of the loop of
`recording_thread`: the controller readings taken by `capture_controller`,
the result `now` of `millis()` at line 126, the result `wake` of `millis()`
at line 142 (after `task_delay_until` returned), and whether another task
called `stop_recording()` while the loop was waiting in `task_delay_until`. -/
structure TickInput where
  controller : Controller
  now : Nat
  wake : Nat
  external_stop : Bool

/-- The local variables of `recording_thread` that change. -/
structure RecordingLocals where
  beginFrame : Nat
  captureCount : Nat
  prev_millis : Nat
  now : Nat
  deriving DecidableEq, Repr

/-- The locals of `recording_thread` when the loop is entered; `start` is
the result of `millis()` at line 110.  `captureDelay * delayMult` is
`5 * 200`. -/
def RecordingLocals.entry (start : Nat) : RecordingLocals where
  beginFrame := start % 2 ^ 32
  captureCount := 0
  prev_millis := (start % 2 ^ 32 + 5 * 200) % 2 ^ 32
  now := start % 2 ^ 32

/-- Where the loop of `recording_thread` stands after some iterations. -/
inductive RecordingRun where
  | running (l : RecordingLocals) (s : State)
  | exited (captures : Nat) (l : RecordingLocals) (s : State)
  deriving DecidableEq

/-- One iteration of the loop of `recording_thread` (lines 121-142).  The
result is `exited` with `captures` 0 when the stop flag is set at the top,
`exited` with `captures` 1 when the elapsed-time test breaks after the
capture, and `running` otherwise. -/
def recording_iteration (inp : TickInput) (l : RecordingLocals) (s : State) : RecordingRun :=
  if s.stop_system then RecordingRun.exited 0 l s
  else
    let s1 := capture_controller inp.controller s
    let l1 := { l with now := inp.now % 2 ^ 32
                       captureCount := (l.captureCount + 1) % 2 ^ 32 }
    if l1.now ≥ (l1.beginFrame + s1.max_recording_time * 1000 % 2 ^ 32) % 2 ^ 32 then
      RecordingRun.exited 1 l1 s1
    else
      let flush := decide (l1.now > l1.prev_millis)
      let s2 := if flush then flush_recording_buffer s1 else s1
      let l2 := if flush then
          { l1 with captureCount := 0, prev_millis := (l1.now + 5 * 200) % 2 ^ 32 }
        else l1
      let l3 := { l2 with beginFrame := inp.wake % 2 ^ 32 }
      let s3 := if inp.external_stop then stop_recording s2 else s2
      RecordingRun.running l3 s3

/-- The loop of `recording_thread` run for at most `n` iterations;
`inputs k` is what the environment supplies to the iteration numbered `k`
and `k` the number of the next iteration.  `exited` carries the number of
captures made since. -/
def recording_loop : Nat → (Nat → TickInput) → Nat → RecordingLocals → State → RecordingRun
  | 0, _, _, l, s => RecordingRun.running l s
  | n + 1, inputs, k, l, s =>
    match recording_iteration (inputs k) l s with
    | RecordingRun.exited c l1 s1 => RecordingRun.exited c l1 s1
    | RecordingRun.running l1 s1 =>
      match recording_loop n inputs (k + 1) l1 s1 with
      | RecordingRun.exited c l2 s2 => RecordingRun.exited (c + 1) l2 s2
      | RecordingRun.running l2 s2 => RecordingRun.running l2 s2

/-- Function `recording_thread`: the loop, then `stop_recording`.  `start`
is the result of `millis()` at line 110.  Returns the number of captures and
the final state; `none` means that the loop is still running after `fuel`
iterations. -/
def recording_thread (fuel : Nat) (start : Nat) (inputs : Nat → TickInput) (s : State) :
    Option (Nat × State) :=
  match recording_loop fuel inputs 0 (RecordingLocals.entry start) s with
  | RecordingRun.running _ _ => none
  | RecordingRun.exited c _ s1 => some (c, stop_recording s1)

/-! ## Reading a recording: header, position, playback start -/

/-- The local variables `lengthData`, `posX`, `posY`, `heading` of
`get_position` and `begin_playback`. -/
structure HeaderVars where
  lengthData : Nat
  posX : Nat
  posY : Nat
  heading : Nat
  deriving DecidableEq, Repr

/-- The four header reads shared by `get_position` (lines 179-185) and
`begin_playback` (lines 217-224).  `u` holds the indeterminate initial
content of the four uninitialised locals. -/
def read_header (stream : IFStream) (u : HeaderVars) : IFStream × HeaderVars :=
  let r0 := stream.read 1 [u.lengthData]
  let r1 := r0.1.read 8 (bytes_of_double u.posX)
  let r2 := r1.1.read 8 (bytes_of_double u.posY)
  let r3 := r2.1.read 8 (bytes_of_double u.heading)
  (r3.1, { lengthData := r0.2.getD 0 0
           posX := double_of_bytes r1.2
           posY := double_of_bytes r2.2
           heading := double_of_bytes r3.2 })

/-- Function `get_position(filename)`; `file` is the content of the named
file (`none` when it cannot be opened).  The two checks of the source only
print a message, the reads are made in every case. -/
def get_position (file : Option (List Nat)) (u : HeaderVars) : PositionData :=
  let h := (read_header (IFStream.open file) u).2
  { positionX := h.posX, positionY := h.posY, heading := h.heading }

/-- The load loop of `begin_playback` (lines 229-243).  `raw k` is the
indeterminate initial content of the `k`-th buffer obtained from
`new char[16]`.  `none` means the fuel ran out. -/
def load_loop : Nat → (Nat → List Nat) → Nat → IFStream → List ControllerData →
    Option (IFStream × List ControllerData)
  | 0, _, _, _, _ => none
  | fuel + 1, raw, k, stream, playback_buffer =>
    if stream.eofbit then some (stream, playback_buffer)
    else
      let r := stream.read 16 (raw k)
      load_loop fuel raw (k + 1) r.1 (playback_buffer ++ [chunk_to_ControllerData r.2])

/-- What `begin_playback` leaves behind: the returned pointer, the global
state, and the header locals (`none` when it returned before reading). -/
structure PlaybackStart where
  ret : ControllerPtr
  state : State
  header : Option HeaderVars
  recording_length : Option Nat

/-- Function `begin_playback(filename)`; `file` is the content of the named
file (`none` when it cannot be opened), `u` and `raw` the indeterminate
initial contents of uninitialised storage.  The stream is a fresh local, so
`bad()` is false after `open` and the test of line 206 is that of
`is_open()`.  `none` means the fuel of the load loop ran out. -/
def begin_playback (fuel : Nat) (usd_installed : Bool) (file : Option (List Nat))
    (u : HeaderVars) (raw : Nat → List Nat) (s : State) : Option PlaybackStart :=
  if !usd_installed then
    some { ret := ControllerPtr.null, state := s, header := none, recording_length := none }
  else
    let stream := IFStream.open file
    if !stream.is_open then
      some { ret := ControllerPtr.null, state := s, header := none, recording_length := none }
    else
      let s1 := { s with playback_controller := ControllerPtr.live {} }
      let h := read_header stream u
      match load_loop fuel raw 0 h.1 s1.playback_buffer with
      | none => none
      | some (_, buf) =>
        let s2 := { s1 with
                    playback_buffer := buf
                    stop_system := false
                    tasks := TaskFn.playback_thread :: s1.tasks }
        some { ret := s2.playback_controller, state := s2, header := some h.2,
               recording_length := some (h.2.lengthData % 256) }

/-! ## Playback loop and stop -/

/-- The assignments of one iteration of `playback_thread` on the virtual
controller (lines 262-284): `copy_old`, then the sixteen stores, each
converting to the `signed char` member. -/
def playback_apply (c : virtual_controller) (data : ControllerData) : virtual_controller :=
  { c.copy_old with
    Axis1 := { position_value := toInt8 (at_index data.axis 0) }
    Axis2 := { position_value := toInt8 (at_index data.axis 1) }
    Axis3 := { position_value := toInt8 (at_index data.axis 2) }
    Axis4 := { position_value := toInt8 (at_index data.axis 3) }
    ButtonA := { pressing_value := toInt8 (at_index data.digital 0) }
    ButtonB := { pressing_value := toInt8 (at_index data.digital 1) }
    ButtonX := { pressing_value := toInt8 (at_index data.digital 2) }
    ButtonY := { pressing_value := toInt8 (at_index data.digital 3) }
    ButtonUp := { pressing_value := toInt8 (at_index data.digital 4) }
    ButtonRight := { pressing_value := toInt8 (at_index data.digital 5) }
    ButtonDown := { pressing_value := toInt8 (at_index data.digital 6) }
    ButtonLeft := { pressing_value := toInt8 (at_index data.digital 7) }
    ButtonL1 := { pressing_value := toInt8 (at_index data.digital 8) }
    ButtonL2 := { pressing_value := toInt8 (at_index data.digital 9) }
    ButtonR1 := { pressing_value := toInt8 (at_index data.digital 10) }
    ButtonR2 := { pressing_value := toInt8 (at_index data.digital 11) } }

/-- One iteration of the loop of `playback_thread` past its guard: pops
the head frame and applies it.  `none` stands for undefined behaviour
(`playback_controller` null or dangling, or front of an empty deque). -/
def playback_tick (s : State) : Option State :=
  match s.playback_controller, s.playback_buffer with
  | ControllerPtr.live c, data :: rest =>
    some { s with
           playback_controller := ControllerPtr.live (playback_apply c data)
           playback_buffer := rest }
  | _, _ => none

/-- The stores of `stop_playback` on the virtual controller (lines
307-324): every axis and button set to 0, then `copy_old`. -/
def playback_reset (c : virtual_controller) : virtual_controller :=
  virtual_controller.copy_old
    { c with
      Axis1 := { position_value := 0 }
      Axis2 := { position_value := 0 }
      Axis3 := { position_value := 0 }
      Axis4 := { position_value := 0 }
      ButtonA := { pressing_value := 0 }
      ButtonB := { pressing_value := 0 }
      ButtonX := { pressing_value := 0 }
      ButtonY := { pressing_value := 0 }
      ButtonUp := { pressing_value := 0 }
      ButtonRight := { pressing_value := 0 }
      ButtonDown := { pressing_value := 0 }
      ButtonLeft := { pressing_value := 0 }
      ButtonL1 := { pressing_value := 0 }
      ButtonL2 := { pressing_value := 0 }
      ButtonR1 := { pressing_value := 0 }
      ButtonR2 := { pressing_value := 0 } }

/-- Function `stop_playback`.  `none` stands for undefined behaviour: the
stores go through a null or dangling `playback_controller`. -/
def stop_playback (s : State) : Option State :=
  if s.stop_system then some { s with stop_system := false }
  else
    match s.playback_controller with
    | ControllerPtr.live c =>
      some { s with
             stop_system := true
             playback_controller := ControllerPtr.deleted (playback_reset c)
             playback_buffer := [] }
    | _ => none

/-- The loop of `playback_thread` without interference from other tasks:
the number of iterations made and the state at the `break`.  `none` means
the fuel ran out or an iteration had undefined behaviour. -/
def playback_loop : Nat → State → Option (Nat × State)
  | 0, _ => none
  | fuel + 1, s =>
    if s.playback_buffer.length = 0 || s.stop_system then some (0, s)
    else
      match playback_tick s with
      | none => none
      | some s1 =>
        match playback_loop fuel s1 with
        | none => none
        | some (n, s2) => some (n + 1, s2)

/-- Function `playback_thread`: the loop, then `stop_playback`.  Returns
the number of ticks and the final state. -/
def playback_thread (fuel : Nat) (s : State) : Option (Nat × State) :=
  match playback_loop fuel s with
  | none => none
  | some (n, s1) =>
    match stop_playback s1 with
    | none => none
    | some s2 => some (n, s2)

/-- The state after `n` successive iterations of the loop body of
`playback_thread` (no guard): used to look at the virtual controller
between ticks.  `none` as for `playback_tick`. -/
def playback_ticks : Nat → State → Option State
  | 0, s => some s
  | n + 1, s =>
    match playback_tick s with
    | none => none
    | some s1 => playback_ticks n s1

/-- The answer of `playback_controller->get_digital_new_press(button)` in
state `s`; `none` when the pointer is null or dangling. -/
def query_new_press (s : State) (button : controller_digital_e_t) : Option Int :=
  match s.playback_controller with
  | ControllerPtr.live c => some (c.get_digital_new_press button)
  | _ => none

/-! ## Wire order of the specification -/

/-- Position of an analog channel in a frame according to the documented
wire order `RightX, RightY, LeftY, LeftX`. -/
def wire_index_analog : controller_analog_e_t → Nat
  | E_CONTROLLER_ANALOG_RIGHT_X => 0
  | E_CONTROLLER_ANALOG_RIGHT_Y => 1
  | E_CONTROLLER_ANALOG_LEFT_Y => 2
  | E_CONTROLLER_ANALOG_LEFT_X => 3

/-- Position of a button in a frame according to the documented wire order
`A, B, X, Y, Up, Right, Down, Left, L1, L2, R1, R2`. -/
def wire_index_digital : controller_digital_e_t → Nat
  | E_CONTROLLER_DIGITAL_A => 0
  | E_CONTROLLER_DIGITAL_B => 1
  | E_CONTROLLER_DIGITAL_X => 2
  | E_CONTROLLER_DIGITAL_Y => 3
  | E_CONTROLLER_DIGITAL_UP => 4
  | E_CONTROLLER_DIGITAL_RIGHT => 5
  | E_CONTROLLER_DIGITAL_DOWN => 6
  | E_CONTROLLER_DIGITAL_LEFT => 7
  | E_CONTROLLER_DIGITAL_L1 => 8
  | E_CONTROLLER_DIGITAL_L2 => 9
  | E_CONTROLLER_DIGITAL_R1 => 10
  | E_CONTROLLER_DIGITAL_R2 => 11

/-! ## Auxiliary definitions and sample inputs for the statements -/

/-- A stream in good state with `bs` left to read. -/
def IFStream.good (bs : List Nat) : IFStream :=
  { is_open := true, rest := bs, eofbit := false, failbit := false }

/-- The header bytes written by `start_recording`. -/
def header_bytes (d x y h : Nat) : List Nat :=
  [d] ++ bytes_of_double x ++ bytes_of_double y ++ bytes_of_double h

/-- A concrete frame with extreme axis values and non-boolean button bytes. -/
def sampleFrame : ControllerData where
  axis := [-128, 127, -1, 0]
  digital := [1, 0, 1, 0, 0, 0, 0, 0, 1, 0, -7, 1]

/-- A GPS reading: the bit patterns of `1.5`, `-2.0` and `90.0`. -/
def sampleGps : Gps where
  get_position_x := 0x3FF8000000000000
  get_position_y := 0xC000000000000000
  get_heading := 0x4056800000000000

/-- A second concrete frame. -/
def sampleFrame2 : ControllerData where
  axis := [5, -5, 100, -100]
  digital := [0, 1, 0, 0, 0, 0, 0, 0, 0, 0, 0, 1]

/-- The file produced by a recording session of duration 15 without GPS
whose capture buffer held `frames` when it was flushed: the header written
by `start_recording`, then the bytes written by `flush_recording_buffer`. -/
def recorded_file (frames : List ControllerData) : List Nat :=
  (flush_recording_buffer
    { start_recording true true true 15 none State.initial with
      recording_buffer := frames }).recording_output_stream.file

/-- Indeterminate content of fresh `new char[16]` storage used in the
concrete evaluations: sixteen bytes `0xAA`. -/
def sampleRaw : Nat → List Nat := fun _ => List.replicate 16 0xAA

/-- Indeterminate content of the header locals used in the concrete
evaluations. -/
def sampleVars : HeaderVars := { lengthData := 7, posX := 1, posY := 2, heading := 3 }

/-- A frame with neutral axes in which only the button at wire position
`i` has the byte `v`. -/
def button_frame (i : Nat) (v : Int) : ControllerData where
  axis := [0, 0, 0, 0]
  digital := (List.replicate 12 0).set i v

/-- A playback session on a fresh virtual controller with R2 (wire
position 11) pressed in frames 1 and 2 and released in frame 3; every other
button, L2 included, stays released. -/
def r2_session : State :=
  { State.initial with
    playback_controller := ControllerPtr.live {}
    playback_buffer := [button_frame 11 1, button_frame 11 1, button_frame 11 0] }

/-- The same session with R1 (wire position 10) in place of R2. -/
def r1_session : State :=
  { State.initial with
    playback_controller := ControllerPtr.live {}
    playback_buffer := [button_frame 10 1, button_frame 10 1, button_frame 10 0] }

/-- The stream has a file attached and no error bit set. -/
def OFStream.ready (o : OFStream) : Prop :=
  o.is_open = true ∧ o.failbit = false ∧ o.badbit = false

/-- The controller at rest: every reading 0. -/
def idle_controller : Controller where
  analog := fun _ => 0
  digital := fun _ => 0

/-- A clock trace with ticks exactly 5 ms apart, loop entered at time 0:
iteration `k` reads `now = 5 * k` and wakes up at `5 * (k + 1)`; nobody
calls `stop_recording`. -/
def steady_inputs : Nat → TickInput := fun k =>
  { controller := idle_controller, now := 5 * k, wake := 5 * (k + 1), external_stop := false }

/-- A playback session of three frames on a fresh controller. -/
def three_frames : State :=
  { State.initial with
    playback_controller := ControllerPtr.live {}
    playback_buffer := [sampleFrame, sampleFrame2, button_frame 11 1] }

/-- A recording session in progress: header written, two frames buffered. -/
def recording_session : State :=
  { start_recording true true true 15 none State.initial with
    recording_buffer := [sampleFrame, sampleFrame2] }

/-- The bytes a stream can still deliver: none once `eofbit` or `failbit`
is set. -/
def IFStream.avail (i : IFStream) : List Nat :=
  if i.eofbit || i.failbit then [] else i.rest

/-- The state a playback of `three_frames` leaves behind when it has run
out of frames: stop flag set, queue empty, controller deleted. -/
def ended_playback : State :=
  { State.initial with
    stop_system := true
    playback_controller := ControllerPtr.deleted {} }

/-- A virtual controller on which only R2 is pressed. -/
def pressed_r2 : virtual_controller := { ButtonR2 := { pressing_value := 1 } }

/-- A virtual controller on which only L2 is pressed. -/
def pressed_l2 : virtual_controller := { ButtonL2 := { pressing_value := 1 } }

/-- The concatenated 16-byte encodings of a list of frames, in list order. -/
def encode_frames (frames : List ControllerData) : List Nat :=
  (frames.map frame_bytes).flatten

/-- The frames captured by the `c` iterations numbered `k`, ..., `k + c - 1`
of the recording loop, in capture order. -/
def captured_frames (inputs : Nat → TickInput) (k c : Nat) : List ControllerData :=
  (List.range c).map (fun i => capture_data (inputs (k + i)).controller)

/-- Invariant of a recording session: the bytes of the file followed by the
encoding of the buffer are `written`; and either the session is active
(stop flag clear, stream ready) or it was stopped from outside (stop flag
set, buffer empty, stream closed). -/
def session_invariant (s : State) (written : List Nat) : Prop :=
  s.recording_output_stream.file ++ encode_frames s.recording_buffer = written ∧
  ((s.stop_system = false ∧ s.recording_output_stream.ready) ∨
   (s.stop_system = true ∧ s.recording_buffer = [] ∧
     s.recording_output_stream.is_open = false))

/-- A clock trace with ticks 5 ms apart in which another task calls
`stop_recording()` during the wait of iteration 2. -/
def stopped_inputs : Nat → TickInput := fun k =>
  { controller := idle_controller, now := 5 * k, wake := 5 * (k + 1),
    external_stop := decide (k = 2) }

/-- The state at the end of the session of duration 15 driven by
`stopped_inputs`: three frames captured, file closed, stop flag cleared
again by the loop's own `stop_recording`. -/
def stopped_session_end : State :=
  { State.initial with
    max_recording_time := 15
    recording_output_stream :=
      { is_open := false, failbit := false, badbit := false,
        file := header_bytes 15 0 0 0 ++ encode_frames (captured_frames stopped_inputs 0 3) }
    tasks := [TaskFn.recording_thread] }

/-- The call `task_delay_until(&prev_time, delta)` made when the clock
reads `clock`: the time at which the task runs again, `prev_time + delta`
or at once when that time has passed. -/
def task_delay_until (clock prev_time delta : Nat) : Nat :=
  max clock (prev_time + delta)

/-- The value of `beginFrame` at the top of iteration `k` of the loop of
`recording_thread` (lines 141-142) or `playback_thread` (lines 287-290):
`start` is the reading at loop entry, `work k` the time that the work of
iteration `k` takes before it calls `task_delay_until(&beginFrame, 5)`, and
the following `beginFrame = millis()` reads the wake-up time. -/
def beginFrame_at (start : Nat) (work : Nat → Nat) : Nat → Nat
  | 0 => start
  | k + 1 =>
    task_delay_until (beginFrame_at start work k + work k) (beginFrame_at start work k) 5

/-- The wake deadline of iteration `k`: the time `beginFrame + 5` that its
`task_delay_until(&beginFrame, 5)` waits for. -/
def wake_deadline (start : Nat) (work : Nat → Nat) (k : Nat) : Nat :=
  beginFrame_at start work k + 5

/-- The inputs of the recording loop under that clock model: iteration `k`
reads `now` at its top and wakes up at the time given by
`task_delay_until`. -/
def timed_inputs (start : Nat) (work : Nat → Nat) : Nat → TickInput := fun k =>
  { controller := idle_controller, now := beginFrame_at start work k,
    wake := beginFrame_at start work (k + 1), external_stop := false }

/-- Work durations with one overrun: iteration 0 takes 8 ms, the others
take no time. -/
def overrun_work : Nat → Nat := fun k => if k = 0 then 8 else 0

/-- The locals of the recording loop, running or exited. -/
def RecordingRun.locals : RecordingRun → RecordingLocals
  | RecordingRun.running l _ => l
  | RecordingRun.exited _ l _ => l

/-- The global state of the recording loop, running or exited. -/
def RecordingRun.state : RecordingRun → State
  | RecordingRun.running _ s => s
  | RecordingRun.exited _ _ s => s

/-- The locals at the top of iteration 201 of a session entered at time 0
with ticks 5 ms apart: no flush has happened, the deadline is 1000. -/
def locals_before_first_flush : RecordingLocals :=
  { beginFrame := 1005, captureCount := 201, prev_millis := 1000, now := 1000 }

/-- The `uint32_t` value `now` of iteration `k` of the recording loop. -/
def now32 (inputs : Nat → TickInput) (k : Nat) : Nat := (inputs k).now % 2 ^ 32

/-- Invariant of the recording loop at the top of an iteration, relating
the size of the buffer to the flush deadline `prev_millis` and to the last
timestamp `now`: the buffer is empty and the deadline at most 1000 ms
ahead, or the buffer is not empty, no flush was due at the last timestamp
and each buffered frame accounts for 5 ms of the time left to the deadline.  `slack` is 5 before
the first flush (the first tick need not be 5 ms after the loop start) and
0 after a flush. -/
def buffer_invariant (slack : Nat) (l : RecordingLocals) (s : State) : Prop :=
  (s.recording_buffer.length = 0 ∧ l.prev_millis ≤ l.now + 1000) ∨
  (1 ≤ s.recording_buffer.length ∧
    5 * s.recording_buffer.length + l.prev_millis ≤ l.now + 1000 + slack ∧
    l.now ≤ l.prev_millis)

/-! ## Lemmas on machine integers -/

theorem length_four {α : Type} (l : List α) (h : l.length = 4) :
    ∃ a b c d, l = [a, b, c, d] := by
  rcases l with _ | ⟨a, _ | ⟨b, _ | ⟨c, _ | ⟨d, _ | ⟨e, t⟩⟩⟩⟩⟩ <;> simp at h
  exact ⟨a, b, c, d, rfl⟩

theorem length_twelve {α : Type} (l : List α) (h : l.length = 12) :
    ∃ a b c d e f g i j k m n, l = [a, b, c, d, e, f, g, i, j, k, m, n] := by
  rcases l with _ | ⟨a, _ | ⟨b, _ | ⟨c, _ | ⟨d, _ | ⟨e, _ | ⟨f, _ | ⟨g, _ | ⟨i, _ | ⟨j,
    _ | ⟨k, _ | ⟨m, _ | ⟨n, _ | ⟨o, t⟩⟩⟩⟩⟩⟩⟩⟩⟩⟩⟩⟩⟩ <;> simp at h
  exact ⟨a, b, c, d, e, f, g, i, j, k, m, n, rfl⟩

theorem signedCharOfByte_byteOfInt8 (v : Int) (h : isInt8 v) :
    signedCharOfByte (byteOfInt8 v) = v := by
  unfold signedCharOfByte byteOfInt8 toInt8 isInt8 at *
  have h0 : (0 : Int) ≤ v % 256 := Int.emod_nonneg _ (by decide)
  rw [Int.toNat_of_nonneg h0]
  omega

theorem toInt8_isInt8 (v : Int) : isInt8 (toInt8 v) := by
  unfold toInt8 isInt8
  omega

theorem toInt8_of_isInt8 (v : Int) (h : isInt8 v) : toInt8 v = v := by
  unfold toInt8 isInt8 at *
  omega

/-! ## Lemmas on doubles and streams -/

theorem bytes_of_double_eq (x : Nat) : bytes_of_double x =
    [x % 256, x / 256 % 256, x / 256 ^ 2 % 256, x / 256 ^ 3 % 256, x / 256 ^ 4 % 256,
     x / 256 ^ 5 % 256, x / 256 ^ 6 % 256, x / 256 ^ 7 % 256] := by
  simp [bytes_of_double, List.ofFn_succ]

theorem bytes_of_double_length (x : Nat) : (bytes_of_double x).length = 8 := by
  simp [bytes_of_double]

theorem double_of_bytes_bytes_of_double (x : Nat) (h : x < 2 ^ 64) :
    double_of_bytes (bytes_of_double x) = x := by
  rw [bytes_of_double_eq]
  simp [double_of_bytes, List.range_succ]
  norm_num at h ⊢
  omega

theorem IFStream.open_some (bs : List Nat) : IFStream.open (some bs) = IFStream.good bs := rfl

/-- Reading exactly the bytes `a` at the front of a good stream. -/
theorem IFStream.read_good_append (a b dest : List Nat) (n : Nat) (hn : a.length = n) :
    (IFStream.good (a ++ b)).read n dest = (IFStream.good b, a) := by
  subst hn
  simp [IFStream.read, IFStream.good]

/-- Reading 16 bytes from a good stream that holds fewer. -/
theorem IFStream.read_good_short (r dest : List Nat) (n : Nat) (hr : r.length < n) :
    (IFStream.good r).read n dest =
      ({ is_open := true, rest := [], eofbit := true, failbit := true },
        r ++ dest.drop r.length) := by
  simp [IFStream.read, IFStream.good, Nat.not_le.mpr hr]

theorem header_bytes_length (d x y h : Nat) : (header_bytes d x y h).length = 25 := by
  simp [header_bytes, bytes_of_double_length]

/-- The state reached by a `start_recording` whose three checks pass on a
stream that had no file attached. -/
theorem start_recording_ok (length : Nat) (gps : Option Gps) (s : State)
    (hclosed : s.recording_output_stream.is_open = false) :
    start_recording true true true length gps s =
      { s with
        max_recording_time := length % 256
        recording_buffer := []
        recording_output_stream :=
          { is_open := true, failbit := false, badbit := false,
            file := header_bytes (length % 256) (gps_reading gps).1 (gps_reading gps).2.1
              (gps_reading gps).2.2 }
        stop_system := false
        tasks := TaskFn.recording_thread :: s.tasks } := by
  simp [start_recording, OFStream.open, OFStream.write, hclosed, header_bytes]

/-- The header reads on a file that starts with a complete header. -/
theorem read_header_header_bytes (d x y h : Nat) (tail : List Nat) (u : HeaderVars)
    (hx : x < 2 ^ 64) (hy : y < 2 ^ 64) (hh : h < 2 ^ 64) :
    read_header (IFStream.good (header_bytes d x y h ++ tail)) u =
      (IFStream.good tail, { lengthData := d, posX := x, posY := y, heading := h }) := by
  have e : header_bytes d x y h ++ tail =
      [d] ++ (bytes_of_double x ++ (bytes_of_double y ++ (bytes_of_double h ++ tail))) := by
    simp [header_bytes]
  rw [e]
  unfold read_header
  simp only [IFStream.read_good_append _ _ _ 1 (List.length_singleton d),
    IFStream.read_good_append _ _ _ 8 (bytes_of_double_length _),
    double_of_bytes_bytes_of_double _ hx, double_of_bytes_bytes_of_double _ hy,
    double_of_bytes_bytes_of_double _ hh]
  simp

/-- The load loop returns once the fuel exceeds the number of bytes left,
on every stream that is in good state or at end of file. -/
theorem load_loop_returns (raw : Nat → List Nat) :
    ∀ (fuel k : Nat) (stream : IFStream) (buf : List ControllerData),
      (stream.eofbit = true ∨ stream.failbit = false) →
      stream.rest.length + 2 ≤ fuel →
      ∃ res, load_loop fuel raw k stream buf = some res := by
  intro fuel
  induction fuel with
  | zero => intro k stream buf _ h; omega
  | succ f ih =>
    intro k stream buf hs hf
    unfold load_loop
    by_cases he : stream.eofbit = true
    · simp [he]
    · have hfail : stream.failbit = false := by
        rcases hs with h | h
        · exact absurd h he
        · exact h
      simp only [he, Bool.false_eq_true, if_false]
      by_cases h16 : 16 ≤ stream.rest.length
      · apply ih
        · right
          simp [IFStream.read, he, hfail, h16]
        · simp [IFStream.read, he, hfail, h16]
          omega
      · have hr : (stream.read 16 (raw k)).1.eofbit = true := by
          simp [IFStream.read, he, hfail, h16]
        obtain ⟨g, rfl⟩ : ∃ g, f = g + 1 := ⟨f - 1, by omega⟩
        unfold load_loop
        simp [hr]

/-- The function `begin_playback` when the medium is present and the file
opens: the result in terms of the header reads and the load loop. -/
theorem begin_playback_opened (fuel : Nat) (file : List Nat) (u : HeaderVars)
    (raw : Nat → List Nat) (s : State) :
    begin_playback fuel true (some file) u raw s =
      match load_loop fuel raw 0 (read_header (IFStream.good file) u).1 s.playback_buffer with
      | none => none
      | some (_, buf) =>
        some { ret := ControllerPtr.live {}
               state := { s with
                          playback_controller := ControllerPtr.live {}
                          playback_buffer := buf
                          stop_system := false
                          tasks := TaskFn.playback_thread :: s.tasks }
               header := some (read_header (IFStream.good file) u).2
               recording_length :=
                 some ((read_header (IFStream.good file) u).2.lengthData % 256) } := by
  rfl

/-! ## Lemmas on the flush -/

theorem write_bytes_ready (bs : List Nat) :
    ∀ o : OFStream, o.ready →
      bs.foldl (fun o b => o.write [b]) o = { o with file := o.file ++ bs } := by
  induction bs with
  | nil => intro o _; simp
  | cons b t ih =>
    intro o h
    obtain ⟨h1, h2, h3⟩ := h
    have hw : o.write [b] = { o with file := o.file ++ [b] } := by
      simp [OFStream.write, h1, h2, h3]
    rw [List.foldl_cons, hw, ih { o with file := o.file ++ [b] } ⟨h1, h2, h3⟩]
    simp

/-- On a stream that is ready, the flush appends the bytes of the buffered
frames in buffer order. -/
theorem write_frames_ready (buffer : List ControllerData) :
    ∀ o : OFStream, o.ready →
      write_frames o buffer =
        { o with file := o.file ++ (buffer.map frame_bytes).flatten } := by
  induction buffer with
  | nil => intro o _; simp [write_frames]
  | cons f t ih =>
    intro o h
    have := ih { o with file := o.file ++ frame_bytes f } h
    simp only [write_frames, List.foldl_cons] at this ⊢
    rw [write_bytes_ready _ o h, this]
    simp

theorem frame_bytes_length (f : ControllerData) : (frame_bytes f).length = 16 := by
  simp [frame_bytes]

theorem frames_bytes_length (buffer : List ControllerData) :
    ((buffer.map frame_bytes).flatten).length = 16 * buffer.length := by
  induction buffer with
  | nil => rfl
  | cons f t ih => simp [frame_bytes_length, ih]; omega

/-- The chunk conversion of `begin_playback` inverts the byte writes of
`flush_recording_buffer` on every frame of `signed char` values. -/
theorem chunk_of_frame_bytes (f : ControllerData) (h : f.isInt8) :
    chunk_to_ControllerData (frame_bytes f) = f := by
  obtain ⟨axis, digital⟩ := f
  obtain ⟨hla, hld, ha, hd⟩ := h
  obtain ⟨a0, a1, a2, a3, rfl⟩ := length_four axis hla
  obtain ⟨d0, d1, d2, d3, d4, d5, d6, d7, d8, d9, d10, d11, rfl⟩ := length_twelve digital hld
  simp only [List.mem_cons, List.mem_singleton, forall_eq_or_imp, forall_eq] at ha hd
  simp [chunk_to_ControllerData, frame_bytes, at_index, List.range_succ,
    signedCharOfByte_byteOfInt8, ha, hd]

theorem sampleFrame_isInt8 : sampleFrame.isInt8 := by
  decide

/-! ## C1: frame round trip -/

/-- C1. Frame round trip: for every `ControllerData` whose 16 fields are
`signed char` values, `flush_recording_buffer` with that frame in the
buffer appends exactly 16 bytes to the file of a ready stream, and the
chunk conversion of `begin_playback` applied to these 16 bytes gives back
a frame equal to the original in `axis` and `digital`. -/
theorem frame_round_trip (f : ControllerData) (s : State) (h : f.isInt8)
    (hs : s.recording_output_stream.ready) :
    ∃ bytes, (flush_recording_buffer
        { s with recording_buffer := [f] }).recording_output_stream.file =
        s.recording_output_stream.file ++ bytes ∧
      bytes.length = 16 ∧ chunk_to_ControllerData bytes = f := by
  refine ⟨frame_bytes f, ?_, frame_bytes_length f, chunk_of_frame_bytes f h⟩
  simp only [flush_recording_buffer]
  rw [write_frames_ready _ _ hs]
  simp

/-- C1 at `sampleFrame`, flushed right after the header was written. -/
theorem frame_round_trip_witness :
    ∃ bytes, (flush_recording_buffer
        { start_recording true true true 15 none State.initial with
          recording_buffer := [sampleFrame] }).recording_output_stream.file =
        (start_recording true true true 15 none
          State.initial).recording_output_stream.file ++ bytes ∧
      bytes.length = 16 ∧ chunk_to_ControllerData bytes = sampleFrame :=
  frame_round_trip sampleFrame (start_recording true true true 15 none State.initial)
    sampleFrame_isInt8 ⟨rfl, rfl, rfl⟩

/-! ## C2: header round trip -/

/-- C2. Header round trip: for every duration `d` in `[0, 255]` and every
three doubles (the readings of the GPS, or `0.0` three times without GPS),
`start_recording` writes 25 header bytes, and on every file that starts
with them the header reads of `get_position` and `begin_playback` give back
`d` and the same three bit patterns; `get_position` returns exactly the
three doubles, and `begin_playback` returns having read them. -/
theorem header_round_trip (d : Nat) (gps : Option Gps) (s : State) (tail : List Nat)
    (u : HeaderVars) (raw : Nat → List Nat) (s0 : State)
    (hd : d ≤ 255)
    (hx : (gps_reading gps).1 < 2 ^ 64) (hy : (gps_reading gps).2.1 < 2 ^ 64)
    (hh : (gps_reading gps).2.2 < 2 ^ 64)
    (hclosed : s.recording_output_stream.is_open = false) :
    let file := (start_recording true true true d gps s).recording_output_stream.file
    let hv : HeaderVars :=
      { lengthData := d, posX := (gps_reading gps).1, posY := (gps_reading gps).2.1,
        heading := (gps_reading gps).2.2 }
    file.length = 25 ∧
    (read_header (IFStream.open (some (file ++ tail))) u).2 = hv ∧
    get_position (some (file ++ tail)) u =
      { positionX := (gps_reading gps).1, positionY := (gps_reading gps).2.1,
        heading := (gps_reading gps).2.2 } ∧
    ∀ fuel, tail.length + 2 ≤ fuel →
      ∃ r, begin_playback fuel true (some (file ++ tail)) u raw s0 = some r ∧
        r.header = some hv ∧ r.recording_length = some d := by
  have hmod : d % 256 = d := Nat.mod_eq_of_lt (by omega)
  have hfile : (start_recording true true true d gps s).recording_output_stream.file =
      header_bytes d (gps_reading gps).1 (gps_reading gps).2.1 (gps_reading gps).2.2 := by
    rw [start_recording_ok d gps s hclosed, hmod]
  have hread := read_header_header_bytes d _ _ _ tail u hx hy hh
  simp only [hfile, IFStream.open_some]
  refine ⟨header_bytes_length _ _ _ _, ?_, ?_, ?_⟩
  · rw [hread]
  · simp [get_position, IFStream.open_some, hread]
  · intro fuel hfuel
    obtain ⟨res, hres⟩ := load_loop_returns raw fuel 0 (IFStream.good tail)
      ({ s0 with playback_controller := ControllerPtr.live {} } : State).playback_buffer
      (Or.inr rfl) hfuel
    obtain ⟨st, buf⟩ := res
    rw [begin_playback_opened, hread]
    simp only [hres]
    exact ⟨_, rfl, rfl, by simp [hmod]⟩

/-- C2 at duration 15, `sampleGps`, and a file holding one frame after the
header. -/
theorem header_round_trip_witness :
    get_position
      (some ((start_recording true true true 15 (some sampleGps)
        State.initial).recording_output_stream.file ++ frame_bytes sampleFrame))
      { lengthData := 7, posX := 1, posY := 2, heading := 3 } =
      { positionX := 0x3FF8000000000000, positionY := 0xC000000000000000,
        heading := 0x4056800000000000 } :=
  (header_round_trip 15 (some sampleGps) State.initial (frame_bytes sampleFrame)
    { lengthData := 7, posX := 1, posY := 2, heading := 3 } (fun _ => []) State.initial
    (by decide) (by decide) (by decide) (by decide) rfl).2.2.1

/-! ## C3: FIFO fidelity -/

/-- C3 at the buffer `[sampleFrame, sampleFrame2]`: the recorded file has
25 + 32 bytes, and `begin_playback` leaves three frames in
`playback_buffer`, the two recorded ones followed by a frame made of the
indeterminate content of the last buffer (here `0xAA` bytes: -86). -/
theorem fifo_fidelity_extra_frame :
    (recorded_file [sampleFrame, sampleFrame2]).length = 25 + 16 * 2 ∧
    (begin_playback 10 true (some (recorded_file [sampleFrame, sampleFrame2]))
        sampleVars sampleRaw State.initial).map (fun r => r.state.playback_buffer) =
      some [sampleFrame, sampleFrame2,
            { axis := List.replicate 4 (-86), digital := List.replicate 12 (-86) }] := by
  decide

/-! ## C4: replay transparency -/

theorem capture_data_isInt8 (ctl : Controller) : (capture_data ctl).isInt8 := by
  simp [ControllerData.isInt8, capture_data, toInt8_isInt8]

theorem toInt8_toInt8 (v : Int) : toInt8 (toInt8 v) = toInt8 v :=
  toInt8_of_isInt8 _ (toInt8_isInt8 v)

/-- C4. Replay transparency per channel: let `stored` be the frame that
`capture_controller` builds from the readings `ctl`.  It holds the
`int8_t` conversion of each reading at the channel's place in the wire
order; the frame loaded from the 16 bytes written for it is `stored`
again; and after the playback tick that applies the loaded frame to any
virtual controller, `get_analog` returns the stored value of the same
channel and `get_digital` returns 1 when the stored byte of the same
button is non-zero and 0 otherwise. -/
theorem replay_transparency (ctl : Controller) (c : virtual_controller)
    (rest : List ControllerData) (s : State) :
    let stored := capture_data ctl
    let loaded := chunk_to_ControllerData (frame_bytes stored)
    (∀ ch, at_index stored.axis (wire_index_analog ch) = toInt8 (ctl.analog ch)) ∧
    (∀ b, at_index stored.digital (wire_index_digital b) = toInt8 (ctl.digital b)) ∧
    loaded = stored ∧
    ∃ c1, playback_tick { s with playback_controller := ControllerPtr.live c
                                 playback_buffer := loaded :: rest } =
        some { s with playback_controller := ControllerPtr.live c1
                      playback_buffer := rest } ∧
      (∀ ch, c1.get_analog ch = at_index stored.axis (wire_index_analog ch)) ∧
      (∀ b, c1.get_digital b =
        if at_index stored.digital (wire_index_digital b) ≠ 0 then 1 else 0) := by
  intro stored loaded
  have hl : loaded = stored := chunk_of_frame_bytes _ (capture_data_isInt8 ctl)
  refine ⟨?_, ?_, hl, playback_apply c loaded, ?_, ?_, ?_⟩
  · intro ch
    cases ch <;> rfl
  · intro b
    cases b <;> rfl
  · rfl
  · intro ch
    rw [hl]
    cases ch <;>
      simp [stored, virtual_controller.get_analog, playback_apply, capture_data, at_index,
        wire_index_analog, virtual_controller_axis.position, toInt8_toInt8,
        virtual_controller.copy_old]
  · intro b
    rw [hl]
    cases b <;>
      simp [stored, virtual_controller.get_digital, playback_apply, capture_data, at_index,
        wire_index_digital, virtual_controller_digital.pressing, toInt8_toInt8,
        virtual_controller.copy_old, int_of_bool]

/-! ## C5: new-press edge detection -/

/-- C5 at `r2_session`: after tick 2, with R2 pressed in frames 1 and 2,
`get_digital_new_press(E_CONTROLLER_DIGITAL_R2)` still answers 1, because
`copy_old` stores `ButtonL2` into `PrevButtonR2`; for R1 with the same
frames the answers are 1, 0, 0. -/
theorem new_press_r2_held :
    ((playback_ticks 1 r2_session).bind
        (fun s => query_new_press s E_CONTROLLER_DIGITAL_R2) = some 1 ∧
     (playback_ticks 2 r2_session).bind
        (fun s => query_new_press s E_CONTROLLER_DIGITAL_R2) = some 1 ∧
     (playback_ticks 3 r2_session).bind
        (fun s => query_new_press s E_CONTROLLER_DIGITAL_R2) = some 0) ∧
    ((playback_ticks 1 r1_session).bind
        (fun s => query_new_press s E_CONTROLLER_DIGITAL_R1) = some 1 ∧
     (playback_ticks 2 r1_session).bind
        (fun s => query_new_press s E_CONTROLLER_DIGITAL_R1) = some 0 ∧
     (playback_ticks 3 r1_session).bind
        (fun s => query_new_press s E_CONTROLLER_DIGITAL_R1) = some 0) := by
  decide

/-! ## C6: truncated file -/

/-- C6 at `k = 1`, `r = 3`: on a file of 25 + 16 + 3 bytes (the recording
of `sampleFrame` followed by the bytes 1, 2, 3) `begin_playback` leaves two
frames in `playback_buffer`; the second is made of the three trailing bytes
and of the indeterminate rest of the buffer. -/
theorem truncated_file_extra_frame :
    (recorded_file [sampleFrame] ++ [1, 2, 3]).length = 25 + 16 * 1 + 3 ∧
    (begin_playback 10 true (some (recorded_file [sampleFrame] ++ [1, 2, 3]))
        sampleVars sampleRaw State.initial).map (fun r => r.state.playback_buffer) =
      some [sampleFrame,
            { axis := [1, 2, 3, -86], digital := List.replicate 12 (-86) }] := by
  decide

/-! ## C7: end of a recording -/

/-- With ticks 5 ms apart and a duration of 2 seconds, the loop is still
running after `n` iterations made from iteration `k` on, as long as the
clock stays below `2 ^ 32`, and every iteration added one frame to the
file or to the buffer. -/
theorem recording_loop_steady (n : Nat) :
    ∀ (k : Nat) (l : RecordingLocals) (s : State),
      l.beginFrame = 5 * k → 5 * (k + n) + 2000 < 2 ^ 32 →
      s.stop_system = false → s.max_recording_time = 2 →
      s.recording_output_stream.ready →
      ∃ l1 s1, recording_loop n steady_inputs k l s = RecordingRun.running l1 s1 ∧
        s1.recording_output_stream.file.length + 16 * s1.recording_buffer.length =
          s.recording_output_stream.file.length + 16 * s.recording_buffer.length + 16 * n := by
  induction n with
  | zero => intro k l s _ _ _ _ _; exact ⟨l, s, rfl, by simp⟩
  | succ n ih =>
    intro k l s hb hk hstop hmax hready
    have hnow : 5 * k % 2 ^ 32 = 5 * k := Nat.mod_eq_of_lt (by omega)
    have hwake : 5 * (k + 1) % 2 ^ 32 = 5 * (k + 1) := Nat.mod_eq_of_lt (by omega)
    have hlt : ¬ (5 * k ≥ (5 * k + 2 * 1000 % 2 ^ 32) % 2 ^ 32) := by
      have : (5 * k + 2 * 1000 % 2 ^ 32) % 2 ^ 32 = 5 * k + 2000 := by
        norm_num
        omega
      omega
    by_cases hflush : 5 * k > l.prev_millis
    · obtain ⟨l1, s1, hrun, hlen⟩ := ih (k + 1)
        { l with now := 5 * k, captureCount := 0, prev_millis := (5 * k + 5 * 200) % 2 ^ 32,
                 beginFrame := 5 * (k + 1) }
        (flush_recording_buffer (capture_controller idle_controller s))
        rfl (by omega) hstop hmax
        (by
          simp only [flush_recording_buffer, capture_controller]
          rw [write_frames_ready _ _ hready]
          exact hready)
      refine ⟨l1, s1, ?_, ?_⟩
      · simp only [recording_loop, recording_iteration, steady_inputs, hstop, hnow, hwake, hb,
          capture_controller, hmax, hlt, hflush] at hrun ⊢
        simp only [Bool.false_eq_true, if_false, decide_True, if_true] at hrun ⊢
        rw [hrun]
      · have hfile : (flush_recording_buffer
            (capture_controller idle_controller s)).recording_output_stream.file.length =
            s.recording_output_stream.file.length + 16 * (s.recording_buffer.length + 1) := by
          simp only [flush_recording_buffer, capture_controller]
          rw [write_frames_ready _ _ hready, List.length_append, frames_bytes_length]
          simp
        have hbuf : (flush_recording_buffer
            (capture_controller idle_controller s)).recording_buffer.length = 0 := rfl
        rw [hlen, hfile, hbuf]
        omega
    · obtain ⟨l1, s1, hrun, hlen⟩ := ih (k + 1)
        { l with now := 5 * k, captureCount := (l.captureCount + 1) % 2 ^ 32,
                 beginFrame := 5 * (k + 1) }
        (capture_controller idle_controller s)
        rfl (by omega) hstop hmax hready
      refine ⟨l1, s1, ?_, ?_⟩
      · simp only [recording_loop, recording_iteration, steady_inputs, hstop, hnow, hwake, hb,
          capture_controller, hmax, hlt, hflush] at hrun ⊢
        simp only [Bool.false_eq_true, if_false, decide_False] at hrun ⊢
        rw [hrun]
      · rw [hlen]
        simp [capture_controller]
        omega

/-- C7 at duration 2 with ticks exactly 5 ms apart: after 1000 iterations
(5 seconds) the loop of `recording_thread` has not left, 1000 frames have
been captured (file and buffer together), and `recording_thread` has not
returned. -/
theorem recording_runs_past_duration :
    (∃ l s, recording_loop 1000 steady_inputs 0 (RecordingLocals.entry 0)
        (start_recording true true true 2 none State.initial) = RecordingRun.running l s ∧
      s.recording_output_stream.file.length + 16 * s.recording_buffer.length =
        25 + 16 * 1000) ∧
    recording_thread 1000 0 steady_inputs
      (start_recording true true true 2 none State.initial) = none := by
  obtain ⟨l, s, hrun, hlen⟩ := recording_loop_steady 1000 0 (RecordingLocals.entry 0)
    (start_recording true true true 2 none State.initial) rfl (by norm_num) rfl rfl
    ⟨rfl, rfl, rfl⟩
  refine ⟨⟨l, s, hrun, ?_⟩, ?_⟩
  · rw [hlen]
    rfl
  · simp [recording_thread, hrun]

/-! ## C8: playback exhaustion -/

/-- The loop of `playback_thread` on a live controller with the stop flag
clear: it makes one iteration per queued frame, applying the frames in
queue order, and leaves with the queue empty. -/
theorem playback_loop_exhausts (buf : List ControllerData) :
    ∀ (c : virtual_controller) (s : State) (fuel : Nat),
      s.playback_controller = ControllerPtr.live c → s.playback_buffer = buf →
      s.stop_system = false → buf.length < fuel →
      playback_loop fuel s =
        some (buf.length,
          { s with playback_controller := ControllerPtr.live (buf.foldl playback_apply c)
                   playback_buffer := [] }) := by
  induction buf with
  | nil =>
    intro c s fuel hc hb hs hf
    obtain ⟨g, rfl⟩ : ∃ g, fuel = g + 1 := ⟨fuel - 1, by simp at hf; omega⟩
    cases s
    simp_all [playback_loop]
  | cons f t ih =>
    intro c s fuel hc hb hs hf
    obtain ⟨g, rfl⟩ : ∃ g, fuel = g + 1 := ⟨fuel - 1, by simp at hf; omega⟩
    obtain ⟨o, rb, mt, pc, pb, st, tk⟩ := s
    simp only at hc hb hs
    subst hc hb hs
    have hrec := ih (playback_apply c f)
      { recording_output_stream := o, recording_buffer := rb, max_recording_time := mt,
        playback_controller := ControllerPtr.live (playback_apply c f),
        playback_buffer := t, stop_system := false, tasks := tk }
      g rfl rfl rfl (by simp at hf; omega)
    unfold playback_loop
    simp only [playback_tick, hrec]
    simp

theorem playback_reset_eq (c : virtual_controller) : playback_reset c = {} := rfl

/-- C8. Playback exhaustion: `playback_thread`, started with a live
controller, the stop flag clear and `n` frames queued, and given more fuel
than `n`, returns after exactly `n` ticks; the loop applied the frames in
queue order, one per tick; in the final state the stop flag is set, the
queue is empty, and the virtual controller, at the moment it was deleted,
had every axis 0, every button 0 and every new-press query false. -/
theorem playback_exhaustion (s : State) (c : virtual_controller) (fuel : Nat)
    (hc : s.playback_controller = ControllerPtr.live c)
    (hs : s.stop_system = false) (hf : s.playback_buffer.length < fuel) :
    playback_loop fuel s =
      some (s.playback_buffer.length,
        { s with playback_controller :=
                   ControllerPtr.live (s.playback_buffer.foldl playback_apply c)
                 playback_buffer := [] }) ∧
    ∃ s1 c1, playback_thread fuel s = some (s.playback_buffer.length, s1) ∧
      s1.playback_buffer = [] ∧ s1.stop_system = true ∧
      s1.playback_controller = ControllerPtr.deleted c1 ∧
      (∀ ch, c1.get_analog ch = 0) ∧ (∀ b, c1.get_digital b = 0) ∧
      (∀ b, c1.get_digital_new_press b = 0) := by
  have hloop := playback_loop_exhausts s.playback_buffer c s fuel hc rfl hs hf
  refine ⟨hloop, ?_⟩
  refine ⟨{ s with stop_system := true
                   playback_controller := ControllerPtr.deleted {}
                   playback_buffer := [] }, {}, ?_, rfl, rfl, rfl, ?_, ?_, ?_⟩
  · simp [playback_thread, hloop, stop_playback, hs, playback_reset_eq]
  · intro ch; cases ch <;> rfl
  · intro b; cases b <;> rfl
  · intro b; cases b <;> rfl

/-- C8 at `n = 3`: the thread returns after exactly 3 ticks with the
surface neutral. -/
theorem playback_exhaustion_witness :
    ∃ s1 c1, playback_thread 4 three_frames = some (3, s1) ∧
      s1.playback_buffer = [] ∧ s1.stop_system = true ∧
      s1.playback_controller = ControllerPtr.deleted c1 ∧
      (∀ ch, c1.get_analog ch = 0) ∧ (∀ b, c1.get_digital b = 0) ∧
      (∀ b, c1.get_digital_new_press b = 0) :=
  (playback_exhaustion three_frames {} 4 rfl rfl (by decide)).2

/-! ## C9: calling stop twice -/

/-- C9 as stated fails: after one `stop_recording` the stop flag is set,
after two it is clear again; the same for `stop_playback`. -/
theorem stop_twice_differs :
    (stop_recording (stop_recording recording_session)).stop_system ≠
      (stop_recording recording_session).stop_system ∧
    ((stop_playback three_frames).bind stop_playback).map (fun s => s.stop_system) ≠
      (stop_playback three_frames).map (fun s => s.stop_system) := by
  decide

/-- C9, amended.  Each call of `stop_recording` inverts the stop flag.  On
a state whose stop flag is clear, two calls leave the recording buffer and
the stream as one call does and only clear the flag again; on a state whose
stop flag is set, the first call only clears the flag and the second call
is the one that flushes and closes.  The same holds for `stop_playback`
with the playback queue and the virtual controller. -/
theorem stop_twice (s : State) :
    (stop_recording s).stop_system = !s.stop_system ∧
    stop_recording (stop_recording s) =
      (if s.stop_system then stop_recording { s with stop_system := false }
       else { stop_recording s with stop_system := false }) ∧
    (if s.stop_system then stop_recording s = { s with stop_system := false }
     else (stop_recording s).recording_buffer = [] ∧
          (stop_recording s).recording_output_stream.is_open = false) ∧
    (stop_playback s).map (fun s1 => s1.stop_system) =
      (stop_playback s).map (fun _ => !s.stop_system) ∧
    (stop_playback s).bind stop_playback =
      (if s.stop_system then stop_playback { s with stop_system := false }
       else (stop_playback s).map (fun s1 => { s1 with stop_system := false })) ∧
    (if s.stop_system then stop_playback s = some { s with stop_system := false }
     else (stop_playback s).map (fun s1 => (s1.playback_buffer, s1.playback_controller)) =
          (stop_playback s).map (fun _ => ([], ControllerPtr.deleted {}))) := by
  by_cases h : s.stop_system = true
  · simp [stop_recording, stop_playback, h]
  · have h0 : s.stop_system = false := by simpa using h
    refine ⟨?_, ?_, ?_, ?_, ?_, ?_⟩
    · simp [stop_recording, h0, flush_recording_buffer]
    · simp [stop_recording, h0, flush_recording_buffer]
    · simp [stop_recording, h0, flush_recording_buffer, OFStream.close]
      split <;> simp_all
    · cases hp : s.playback_controller <;> simp [stop_playback, h0, hp]
    · cases hp : s.playback_controller <;> simp [stop_playback, h0, hp]
    · cases hp : s.playback_controller <;> simp [stop_playback, h0, hp, playback_reset_eq]

/-! ## C10: precondition failures -/

/-- On a stream without file, an open that the file system refuses leaves
the stream without file. -/
theorem OFStream.open_refused (o : OFStream) (h : o.is_open = false) :
    (o.open false).is_open = false := by
  simp [OFStream.open, h]

/-- C10 as stated fails: with the medium present and the controller
connected, an `open` that the file system refuses on a stream still open
from an earlier session sets only `failbit`; the test of line 26 does not
fire and `start_recording` empties the buffer, overwrites
`max_recording_time` and creates a recording task. -/
theorem refused_open_undetected :
    (recording_session.recording_output_stream.open false).is_open = true ∧
    (recording_session.recording_output_stream.open false).failbit = true ∧
    (recording_session.recording_output_stream.open false).badbit = false ∧
    recording_session.recording_buffer = [sampleFrame, sampleFrame2] ∧
    (start_recording true true false 7 none recording_session).recording_buffer = [] ∧
    recording_session.max_recording_time = 15 ∧
    (start_recording true true false 7 none recording_session).max_recording_time = 7 ∧
    recording_session.tasks = [TaskFn.recording_thread] ∧
    (start_recording true true false 7 none recording_session).tasks =
      [TaskFn.recording_thread, TaskFn.recording_thread] := by
  decide

/-- C10, amended.  Precondition failures start no session.  When the
storage medium is absent or the file cannot be opened, `begin_playback`
returns the null pointer and leaves the whole state as it was (queue, stop
flag, controller pointer, task list).  When the storage medium is absent,
the controller is not connected, or the file system refuses the open while
`recording_output_stream` has no file attached, `start_recording` leaves
the bytes of the file, the recording buffer, `max_recording_time`, the stop
flag and the task list as they were. -/
theorem precondition_failures (s : State) (usd_installed controller_connected open_ok : Bool)
    (length : Nat) (gps : Option Gps) (file : Option (List Nat)) (u : HeaderVars)
    (raw : Nat → List Nat) (fuel : Nat) :
    ((usd_installed = false ∨ file = none) →
      ∃ r, begin_playback fuel usd_installed file u raw s = some r ∧
        r.ret = ControllerPtr.null ∧ r.state = s) ∧
    ((usd_installed = false ∨ controller_connected = false ∨
        (open_ok = false ∧ s.recording_output_stream.is_open = false)) →
      (start_recording usd_installed controller_connected open_ok length gps
          s).recording_output_stream.file = s.recording_output_stream.file ∧
      (start_recording usd_installed controller_connected open_ok length gps
          s).recording_buffer = s.recording_buffer ∧
      (start_recording usd_installed controller_connected open_ok length gps
          s).max_recording_time = s.max_recording_time ∧
      (start_recording usd_installed controller_connected open_ok length gps
          s).stop_system = s.stop_system ∧
      (start_recording usd_installed controller_connected open_ok length gps
          s).tasks = s.tasks) := by
  constructor
  · rintro (h | h)
    · exact ⟨{ ret := ControllerPtr.null, state := s, header := none,
               recording_length := none }, by simp [begin_playback, h], rfl, rfl⟩
    · subst h
      cases usd_installed
      · exact ⟨{ ret := ControllerPtr.null, state := s, header := none,
                 recording_length := none }, by simp [begin_playback], rfl, rfl⟩
      · exact ⟨{ ret := ControllerPtr.null, state := s, header := none,
                 recording_length := none }, by simp [begin_playback, IFStream.open], rfl, rfl⟩
  · intro h
    rcases h with h | h | ⟨hok, hclosed⟩
    · simp [start_recording, h]
    · simp [start_recording, h]
    · subst hok
      have hopen := OFStream.open_refused s.recording_output_stream hclosed
      have hfile : (s.recording_output_stream.open false).file =
          s.recording_output_stream.file := by
        simp [OFStream.open, hclosed]
      cases usd_installed <;> cases controller_connected <;>
        simp [start_recording, hopen, hfile]

/-- C10 amended, with the medium present, the controller connected, a
playback file that cannot be opened, and an output file that cannot be
created on a stream without file. -/
theorem precondition_failures_witness :
    (∃ r, begin_playback 0 true none sampleVars sampleRaw recording_session = some r ∧
        r.ret = ControllerPtr.null ∧ r.state = recording_session) ∧
    (start_recording true true false 15 none three_frames).tasks = three_frames.tasks :=
  ⟨(precondition_failures recording_session true true false 15 none none sampleVars
      sampleRaw 0).1 (Or.inr rfl),
   ((precondition_failures three_frames true true false 15 none none sampleVars
      sampleRaw 0).2 (Or.inr (Or.inr ⟨rfl, rfl⟩))).2.2.2.2⟩

/-! ## C11: truncated header -/

/-- What a read stores: the deliverable bytes, then the old content of the
destination. -/
theorem IFStream.read_snd (i : IFStream) (n : Nat) (dest : List Nat) (hd : dest.length = n) :
    (i.read n dest).2 = (i.avail ++ dest.drop i.avail.length).take n := by
  unfold IFStream.read IFStream.avail
  by_cases hb : (i.eofbit || i.failbit) = true
  · simp [hb, ← hd]
  · simp only [hb, Bool.false_eq_true, if_false]
    by_cases hn : n ≤ i.rest.length
    · simp [hn, List.take_append_of_le_length]
    · simp only [hn, if_false]
      rw [List.take_of_length_le]
      simp
      omega

/-- What a read leaves deliverable. -/
theorem IFStream.read_avail (i : IFStream) (n : Nat) (dest : List Nat) :
    (i.read n dest).1.avail = i.avail.drop n := by
  unfold IFStream.read IFStream.avail
  by_cases hb : (i.eofbit || i.failbit) = true
  · have : (i.eofbit || true) = true := by simp
    simp [hb, this]
  · simp only [hb, Bool.false_eq_true, if_false]
    simp only [Bool.or_eq_true, not_or, Bool.not_eq_true] at hb
    by_cases hn : n ≤ i.rest.length
    · simp [hn, hb.1, hb.2]
    · simp [hn]
      omega

/-- The values of the header locals after the four reads, on any file. -/
theorem read_header_vars (file : List Nat) (u : HeaderVars) :
    (read_header (IFStream.good file) u).2 =
      { lengthData := (file ++ [u.lengthData].drop file.length).getD 0 0
        posX := double_of_bytes
          ((file.drop 1 ++ (bytes_of_double u.posX).drop (file.length - 1)).take 8)
        posY := double_of_bytes
          ((file.drop 9 ++ (bytes_of_double u.posY).drop (file.length - 9)).take 8)
        heading := double_of_bytes
          ((file.drop 17 ++ (bytes_of_double u.heading).drop (file.length - 17)).take 8) } := by
  have h0 : (IFStream.good file).avail = file := rfl
  unfold read_header
  simp only [IFStream.read_snd _ 8 _ (bytes_of_double_length _),
    IFStream.read_snd _ 1 [u.lengthData] rfl, IFStream.read_avail, h0, List.drop_drop,
    List.length_drop]
  congr 1
  cases file <;> simp

/-- A read keeps the stream at end of file, or moves a good stream towards
it: `m` bounds the bytes a good stream still holds. -/
theorem IFStream.read_short (i : IFStream) (n m : Nat) (dest : List Nat) (hn : n ≤ m)
    (h : i.eofbit = true ∨ (i.eofbit = false ∧ i.failbit = false ∧ i.rest.length < m)) :
    (i.read n dest).1.eofbit = true ∨
      ((i.read n dest).1.eofbit = false ∧ (i.read n dest).1.failbit = false ∧
        (i.read n dest).1.rest.length < m - n) := by
  unfold IFStream.read
  rcases h with h | ⟨h1, h2, h3⟩
  · simp [h]
  · by_cases hl : n ≤ i.rest.length
    · right
      simp [h1, h2, hl]
      omega
    · left
      simp [h1, h2, hl]

/-- After the header reads on a file shorter than 25 bytes the stream is at
end of file. -/
theorem read_header_eof (file : List Nat) (u : HeaderVars) (hlen : file.length < 25) :
    (read_header (IFStream.good file) u).1.eofbit = true := by
  have h0 := IFStream.read_short (IFStream.good file) 1 25 [u.lengthData] (by omega)
    (Or.inr ⟨rfl, rfl, hlen⟩)
  have h1 := IFStream.read_short _ 8 24 (bytes_of_double u.posX) (by omega) h0
  have h2 := IFStream.read_short _ 8 16 (bytes_of_double u.posY) (by omega) h1
  have h3 := IFStream.read_short _ 8 8 (bytes_of_double u.heading) (by omega) h2
  rcases h3 with h | ⟨_, _, h⟩
  · exact h
  · simp at h

/-- C11 as stated fails: on a file of 3 bytes `begin_playback` returns a
non-null pointer and creates the playback task, and `get_position` returns
a position whose `positionY` and `heading` are the indeterminate initial
contents of its locals. -/
theorem truncated_header_accepted :
    (begin_playback 1 true (some [15, 0, 0]) sampleVars sampleRaw State.initial).map
        (fun r => (r.ret, r.state.tasks, r.state.playback_buffer)) =
      some (ControllerPtr.live {}, [TaskFn.playback_thread], []) ∧
    get_position (some [15, 0, 0]) sampleVars =
      { positionX := 0, positionY := sampleVars.posY, heading := sampleVars.heading } := by
  decide

/-- C11, amended.  On a file shorter than 25 bytes the header reads do not
fail the call: `begin_playback` allocates the controller, pushes no frame,
clears the stop flag, creates the playback task and returns the non-null
pointer; `get_position` returns a position in which every byte that the
file does not supply is the byte its local variable held before the read. -/
theorem truncated_header (file : List Nat) (u : HeaderVars) (raw : Nat → List Nat)
    (s : State) (fuel : Nat) (hlen : file.length < 25) (hfuel : 1 ≤ fuel) :
    (∃ r, begin_playback fuel true (some file) u raw s = some r ∧
      r.ret = ControllerPtr.live {} ∧
      r.state = { s with playback_controller := ControllerPtr.live {}
                         stop_system := false
                         tasks := TaskFn.playback_thread :: s.tasks }) ∧
    get_position (some file) u =
      { positionX := double_of_bytes
          ((file.drop 1 ++ (bytes_of_double u.posX).drop (file.length - 1)).take 8)
        positionY := double_of_bytes
          ((file.drop 9 ++ (bytes_of_double u.posY).drop (file.length - 9)).take 8)
        heading := double_of_bytes
          ((file.drop 17 ++ (bytes_of_double u.heading).drop (file.length - 17)).take 8) } := by
  constructor
  · obtain ⟨g, rfl⟩ : ∃ g, fuel = g + 1 := ⟨fuel - 1, by omega⟩
    rw [begin_playback_opened]
    simp only [load_loop, read_header_eof file u hlen, if_true]
    exact ⟨_, rfl, rfl, rfl⟩
  · simp only [get_position, IFStream.open_some, read_header_vars]

/-- C11 amended, at the empty file: the position returned is made of the
initial contents of the locals alone. -/
theorem truncated_header_witness :
    get_position (some []) sampleVars =
      { positionX := sampleVars.posX, positionY := sampleVars.posY,
        heading := sampleVars.heading } :=
  (truncated_header [] sampleVars sampleRaw State.initial 1 (by decide) (by decide)).2

/-! ## C12: wire layout -/

/-- Byte `16 * i + j` of the bytes of a list of frames is byte `j` of the
bytes of frame `i`. -/
theorem frames_bytes_getD (frames : List ControllerData) :
    ∀ (i j : Nat) (f : ControllerData), frames[i]? = some f → j < 16 →
      ((frames.map frame_bytes).flatten).getD (16 * i + j) 0 = (frame_bytes f).getD j 0 := by
  induction frames with
  | nil => intro i j f h; simp at h
  | cons g t ih =>
    intro i j f h hj
    cases i with
    | zero =>
      simp only [List.getElem?_cons_zero, Option.some.injEq] at h
      subst h
      simp only [List.map_cons, List.flatten_cons, Nat.mul_zero, Nat.zero_add]
      rw [List.getD_append _ _ _ _ (by rw [frame_bytes_length]; exact hj)]
    | succ i =>
      simp only [List.getElem?_cons_succ] at h
      simp only [List.map_cons, List.flatten_cons]
      rw [List.getD_append_right _ _ _ _ (by rw [frame_bytes_length]; omega),
        frame_bytes_length]
      have e : 16 * (i + 1) + j - 16 = 16 * i + j := by omega
      rw [e]
      exact ih i j f h hj

theorem frame_bytes_axis (f : ControllerData) (j : Nat) (hj : j < 4) :
    (frame_bytes f).getD j 0 = byteOfInt8 (at_index f.axis j) := by
  interval_cases j <;> simp [frame_bytes, List.range_succ]

theorem frame_bytes_digital (f : ControllerData) (j : Nat) (hj : j < 12) :
    (frame_bytes f).getD (4 + j) 0 = byteOfInt8 (at_index f.digital j) := by
  interval_cases j <;> simp [frame_bytes, List.range_succ]

/-- C12. Wire layout: with `N` frames in the buffer, `flush_recording_buffer`
appends exactly `16 * N` bytes to the file of a ready stream; byte
`16 * i + j` (`j < 4`) is the byte of `axis[j]` of frame `i` and byte
`16 * i + 4 + j` (`j < 12`) the byte of `digital[j]` of frame `i`.  A
successful `start_recording` leaves a file of exactly 25 bytes and an empty
buffer: the duration byte at offset 0 and the 8 bytes of x, y and heading
at offsets 1, 9 and 17; without GPS the 24 position bytes are zero. -/
theorem wire_layout (s : State) (frames : List ControllerData) (d : Nat) (gps : Option Gps)
    (s0 : State) (hs : s.recording_output_stream.ready)
    (hclosed : s0.recording_output_stream.is_open = false) :
    (∃ bytes, (flush_recording_buffer
        { s with recording_buffer := frames }).recording_output_stream.file =
        s.recording_output_stream.file ++ bytes ∧
      bytes.length = 16 * frames.length ∧
      ∀ i f, frames[i]? = some f →
        (∀ j, j < 4 → bytes.getD (16 * i + j) 0 = byteOfInt8 (at_index f.axis j)) ∧
        (∀ j, j < 12 → bytes.getD (16 * i + 4 + j) 0 = byteOfInt8 (at_index f.digital j))) ∧
    ((start_recording true true true d gps s0).recording_buffer = [] ∧
     (start_recording true true true d gps s0).recording_output_stream.file.length = 25 ∧
     (start_recording true true true d gps s0).recording_output_stream.file.getD 0 0
        = d % 256 ∧
     ((start_recording true true true d gps s0).recording_output_stream.file.drop 1).take 8
        = bytes_of_double (gps_reading gps).1 ∧
     ((start_recording true true true d gps s0).recording_output_stream.file.drop 9).take 8
        = bytes_of_double (gps_reading gps).2.1 ∧
     ((start_recording true true true d gps s0).recording_output_stream.file.drop 17).take 8
        = bytes_of_double (gps_reading gps).2.2) ∧
    (start_recording true true true d none s0).recording_output_stream.file =
      d % 256 :: List.replicate 24 0 := by
  refine ⟨⟨(frames.map frame_bytes).flatten, ?_, frames_bytes_length frames, ?_⟩, ?_, ?_⟩
  · simp only [flush_recording_buffer]
    rw [write_frames_ready _ _ hs]
  · intro i f hf
    constructor
    · intro j hj
      rw [frames_bytes_getD frames i j f hf (by omega), frame_bytes_axis f j hj]
    · intro j hj
      rw [Nat.add_assoc, frames_bytes_getD frames i (4 + j) f hf (by omega),
        frame_bytes_digital f j hj]
  · rw [start_recording_ok d gps s0 hclosed]
    simp [header_bytes, bytes_of_double_eq]
  · rw [start_recording_ok d none s0 hclosed]
    simp [header_bytes, bytes_of_double_eq, gps_reading, List.replicate]

/-- C12 at the buffer `[sampleFrame, sampleFrame2]` flushed right after a
`start_recording` of duration 15 with `sampleGps`. -/
theorem wire_layout_witness :
    (∃ bytes, (flush_recording_buffer
        { start_recording true true true 15 none State.initial with
          recording_buffer := [sampleFrame, sampleFrame2] }).recording_output_stream.file =
        (start_recording true true true 15 none
          State.initial).recording_output_stream.file ++ bytes ∧
      bytes.length = 16 * 2) ∧
    (start_recording true true true 15 (some sampleGps)
      State.initial).recording_output_stream.file.length = 25 ∧
    (start_recording true true true 15 none State.initial).recording_output_stream.file =
      15 % 256 :: List.replicate 24 0 :=
  match wire_layout (start_recording true true true 15 none State.initial)
      [sampleFrame, sampleFrame2] 15 (some sampleGps) State.initial ⟨rfl, rfl, rfl⟩ rfl with
  | ⟨⟨bytes, h1, h2, _⟩, ⟨_, h3, _⟩, h4⟩ => ⟨⟨bytes, h1, h2⟩, h3, h4⟩

/-! ## C13: stop when no session is running -/

/-- C13 as stated fails in the initial state, where nothing was ever
started: `stop_recording` leaves the stop flag set, and `stop_playback`
stores through the null `playback_controller`. -/
theorem stop_in_initial_state :
    (stop_recording State.initial).stop_system = true ∧
    stop_playback State.initial = none := by
  decide

/-- C13, amended.  In every state whose stop flag is set, `stop_recording`
and `stop_playback` change nothing but the flag, which is false
afterwards.  That is the state a playback that ran out of frames leaves
behind, and the state the loop's own `stop_recording` leaves behind after
an exit of the recording loop with the flag clear (a time-out): in every
state whose stop flag is clear, `stop_recording` sets it. -/
theorem stop_when_flag_set :
    (∀ s : State, s.stop_system = true →
      stop_recording s = { s with stop_system := false } ∧
      stop_playback s = some { s with stop_system := false }) ∧
    (∀ (s : State) (c : virtual_controller) (fuel : Nat),
      s.playback_controller = ControllerPtr.live c → s.stop_system = false →
      s.playback_buffer.length < fuel →
      ∃ n s1, playback_thread fuel s = some (n, s1) ∧ s1.stop_system = true) ∧
    (∀ s : State, s.stop_system = false → (stop_recording s).stop_system = true) := by
  refine ⟨?_, ?_, ?_⟩
  · intro s h
    simp [stop_recording, stop_playback, h]
  · intro s c fuel hc hs hf
    have hloop := playback_loop_exhausts s.playback_buffer c s fuel hc rfl hs hf
    refine ⟨s.playback_buffer.length,
      { s with stop_system := true
               playback_controller := ControllerPtr.deleted {}
               playback_buffer := [] }, ?_, rfl⟩
    simp [playback_thread, hloop, stop_playback, hs, playback_reset_eq]
  · intro s h
    simp [stop_recording, h, flush_recording_buffer]

/-- C13 amended, at the state left by the playback of `three_frames`. -/
theorem stop_when_flag_set_witness :
    playback_thread 4 three_frames = some (3, ended_playback) ∧
    stop_recording ended_playback = { ended_playback with stop_system := false } ∧
    stop_playback ended_playback = some { ended_playback with stop_system := false } :=
  ⟨by decide, stop_when_flag_set.1 ended_playback rfl⟩

/-! ## C15: `copy_old` -/

/-- C15 at a controller on which only R2 is pressed, and at one on which
only L2 is pressed: after `copy_old`, `PrevButtonR2` holds the value of
`ButtonL2`, not that of `ButtonR2`; the other eleven Prev buttons hold the
value of the button of the same name. -/
theorem copy_old_r2 :
    pressed_r2.ButtonR2.pressing_value = 1 ∧
    pressed_r2.copy_old.PrevButtonR2.pressing_value = 0 ∧
    pressed_l2.ButtonR2.pressing_value = 0 ∧
    pressed_l2.copy_old.PrevButtonR2.pressing_value = 1 ∧
    pressed_l2.copy_old.PrevButtonL2.pressing_value = 1 := by
  decide

/-! ## C14: no frame lost by flushing -/

theorem encode_frames_append (a b : List ControllerData) :
    encode_frames (a ++ b) = encode_frames a ++ encode_frames b := by
  simp [encode_frames]

theorem encode_frames_singleton (f : ControllerData) : encode_frames [f] = frame_bytes f := by
  simp [encode_frames]

theorem captured_frames_succ (inputs : Nat → TickInput) (k c : Nat) :
    captured_frames inputs k (c + 1) =
      capture_data (inputs k).controller :: captured_frames inputs (k + 1) c := by
  simp only [captured_frames, List.range_succ_eq_map, List.map_cons, List.map_map]
  congr 1
  apply List.map_congr_left
  intro i _
  simp only [Function.comp, Nat.add_zero]
  congr 3
  omega

/-- On a ready stream the flush moves the encoding of the buffer to the
file and keeps the stream ready. -/
theorem flush_ready (s : State) (h : s.recording_output_stream.ready) :
    (flush_recording_buffer s).recording_output_stream.file =
      s.recording_output_stream.file ++ encode_frames s.recording_buffer ∧
    (flush_recording_buffer s).recording_output_stream.ready ∧
    (flush_recording_buffer s).recording_buffer = [] ∧
    (flush_recording_buffer s).stop_system = s.stop_system := by
  have e := write_frames_ready s.recording_buffer s.recording_output_stream h
  refine ⟨?_, ?_, rfl, rfl⟩
  · simp only [flush_recording_buffer, e, encode_frames]
  · simp only [flush_recording_buffer, e]
    exact h

/-- One iteration of the recording loop keeps the session invariant and
adds the captured frame, unless it breaks at the top. -/
theorem recording_iteration_invariant (inp : TickInput) (l : RecordingLocals) (s : State)
    (written : List Nat) (h : session_invariant s written) :
    (∀ l1 s1, recording_iteration inp l s = RecordingRun.running l1 s1 →
      session_invariant s1 (written ++ frame_bytes (capture_data inp.controller))) ∧
    (∀ c l1 s1, recording_iteration inp l s = RecordingRun.exited c l1 s1 →
      (c = 0 ∧ session_invariant s1 written) ∨
      (c = 1 ∧ session_invariant s1 (written ++ frame_bytes (capture_data inp.controller)))) := by
  obtain ⟨hw, hphase⟩ := h
  by_cases hstop : s.stop_system = true
  · constructor
    · intro l1 s1 he
      simp [recording_iteration, hstop] at he
    · intro c l1 s1 he
      simp only [recording_iteration, hstop, if_true, RecordingRun.exited.injEq] at he
      obtain ⟨rfl, -, rfl⟩ := he
      exact Or.inl ⟨rfl, hw, hphase⟩
  · have hstop0 : s.stop_system = false := by simpa using hstop
    have hready : s.recording_output_stream.ready := by
      rcases hphase with ⟨_, h⟩ | ⟨h, _⟩
      · exact h
      · exact absurd h hstop
    have hcap : session_invariant (capture_controller inp.controller s)
        (written ++ frame_bytes (capture_data inp.controller)) := by
      refine ⟨?_, Or.inl ⟨hstop0, hready⟩⟩
      simp only [capture_controller, encode_frames_append, encode_frames_singleton]
      rw [← List.append_assoc, hw]
    have hflush : session_invariant
        (flush_recording_buffer (capture_controller inp.controller s))
        (written ++ frame_bytes (capture_data inp.controller)) := by
      obtain ⟨f1, f2, f3, f4⟩ := flush_ready (capture_controller inp.controller s) hready
      refine ⟨?_, Or.inl ⟨by rw [f4]; exact hstop0, f2⟩⟩
      rw [f1, f3, hcap.1]
      simp [encode_frames]
    have hext : ∀ s2 : State, session_invariant s2
        (written ++ frame_bytes (capture_data inp.controller)) → s2.stop_system = false →
        s2.recording_output_stream.ready →
        session_invariant (stop_recording s2)
          (written ++ frame_bytes (capture_data inp.controller)) := by
      intro s2 h2 hs2 hr2
      obtain ⟨f1, f2, f3, f4⟩ := flush_ready { s2 with stop_system := true } hr2
      simp only [stop_recording, hs2, Bool.false_eq_true, if_false]
      refine ⟨?_, Or.inr ⟨?_, ?_, ?_⟩⟩
      · simp only [OFStream.close, f2.1, if_true]
        rw [f1, f3]
        simpa [encode_frames] using h2.1
      · exact f4
      · exact f3
      · simp [OFStream.close, f2.1]
    constructor
    · intro l1 s1 he
      simp only [recording_iteration, hstop0, Bool.false_eq_true, if_false] at he
      split at he
      · simp at he
      · simp only [RecordingRun.running.injEq] at he
        obtain ⟨-, rfl⟩ := he
        by_cases hf : inp.now % 2 ^ 32 > l.prev_millis <;>
          by_cases hx : inp.external_stop = true
        · simp only [hf, hx, decide_True, if_true]
          exact hext _ hflush
            ((flush_ready (capture_controller inp.controller s) hready).2.2.2.trans hstop0)
            (flush_ready (capture_controller inp.controller s) hready).2.1
        · simp only [hf, hx, decide_True, if_true, Bool.false_eq_true, if_false]
          exact hflush
        · simp only [hf, hx, decide_False, if_true, Bool.false_eq_true, if_false]
          exact hext _ hcap hstop0 hready
        · simp only [hf, hx, decide_False, Bool.false_eq_true, if_false]
          exact hcap
    · intro c l1 s1 he
      simp only [recording_iteration, hstop0, Bool.false_eq_true, if_false] at he
      split at he
      · simp only [RecordingRun.exited.injEq] at he
        obtain ⟨rfl, -, rfl⟩ := he
        exact Or.inr ⟨rfl, hcap⟩
      · simp at he

/-- The recording loop keeps the session invariant: after any number of
iterations, running or exited, file and buffer together hold what was
written before followed by the encodings of the frames captured since. -/
theorem recording_loop_invariant (inputs : Nat → TickInput) (n : Nat) :
    ∀ (k : Nat) (l : RecordingLocals) (s : State) (written : List Nat),
      session_invariant s written →
      (∀ l1 s1, recording_loop n inputs k l s = RecordingRun.running l1 s1 →
        session_invariant s1 (written ++ encode_frames (captured_frames inputs k n))) ∧
      (∀ c l1 s1, recording_loop n inputs k l s = RecordingRun.exited c l1 s1 →
        c ≤ n ∧
        session_invariant s1 (written ++ encode_frames (captured_frames inputs k c))) := by
  induction n with
  | zero =>
    intro k l s written h
    constructor
    · intro l1 s1 he
      simp only [recording_loop, RecordingRun.running.injEq] at he
      obtain ⟨-, rfl⟩ := he
      simpa [captured_frames, encode_frames] using h
    · intro c l1 s1 he
      simp [recording_loop] at he
  | succ n ih =>
    intro k l s written h
    obtain ⟨hrun, hexit⟩ := recording_iteration_invariant (inputs k) l s written h
    have hsucc : ∀ c, written ++ encode_frames (captured_frames inputs k (c + 1)) =
        written ++ frame_bytes (capture_data (inputs k).controller) ++
          encode_frames (captured_frames inputs (k + 1) c) := by
      intro c
      rw [captured_frames_succ]
      simp [encode_frames]
    cases hit : recording_iteration (inputs k) l s with
    | exited c0 l0 s0 =>
      constructor
      · intro l1 s1 he
        simp [recording_loop, hit] at he
      · intro c l1 s1 he
        simp only [recording_loop, hit, RecordingRun.exited.injEq] at he
        obtain ⟨rfl, -, rfl⟩ := he
        rcases hexit c0 l0 s0 hit with ⟨rfl, hinv⟩ | ⟨rfl, hinv⟩
        · exact ⟨by omega, by simpa [captured_frames, encode_frames] using hinv⟩
        · refine ⟨by omega, ?_⟩
          rw [hsucc 0]
          simpa [captured_frames, encode_frames] using hinv
    | running l0 s0 =>
      obtain ⟨ihrun, ihexit⟩ := ih (k + 1) l0 s0 _ (hrun l0 s0 hit)
      cases hrest : recording_loop n inputs (k + 1) l0 s0 with
      | exited c2 l2 s2 =>
        constructor
        · intro l1 s1 he
          simp [recording_loop, hit, hrest] at he
        · intro c l1 s1 he
          simp only [recording_loop, hit, hrest, RecordingRun.exited.injEq] at he
          obtain ⟨rfl, -, rfl⟩ := he
          obtain ⟨hc, hinv⟩ := ihexit c2 l2 s2 hrest
          refine ⟨by omega, ?_⟩
          rw [hsucc c2]
          exact hinv
      | running l2 s2 =>
        constructor
        · intro l1 s1 he
          simp only [recording_loop, hit, hrest, RecordingRun.running.injEq] at he
          obtain ⟨-, rfl⟩ := he
          rw [hsucc n]
          exact ihrun l2 s2 hrest
        · intro c l1 s1 he
          simp [recording_loop, hit, hrest] at he

/-- At the end of a session the loop's own `stop_recording` leaves the
file holding everything written, the buffer empty and the stream closed. -/
theorem stop_recording_invariant (s : State) (written : List Nat)
    (h : session_invariant s written) :
    (stop_recording s).recording_output_stream.file = written ∧
    (stop_recording s).recording_buffer = [] ∧
    (stop_recording s).recording_output_stream.is_open = false := by
  obtain ⟨hw, ⟨hs, hr⟩ | ⟨hs, hb, ho⟩⟩ := h
  · obtain ⟨f1, f2, f3, -⟩ := flush_ready { s with stop_system := true } hr
    simp only [stop_recording, hs, Bool.false_eq_true, if_false]
    refine ⟨?_, f3, ?_⟩
    · simp only [OFStream.close, f2.1, if_true]
      rw [f1]
      exact hw
    · simp [OFStream.close, f2.1]
  · simp only [stop_recording, hs, if_true]
    rw [hb] at hw
    exact ⟨by simpa [encode_frames] using hw, hb, ho⟩

/-- C14. No frame is lost, duplicated or reordered by flushing.  In a
session started by a successful `start_recording`, for every trace of
clock readings, controller readings and outside stop requests: after any
number of iterations, whether the loop is still running or has left, the
bytes of the file followed by the encoding of the buffer are the header
followed by the encodings of all frames captured so far, in capture order;
a flush on the ready stream moves the encoding of the buffer to the file
and leaves the buffer empty; and when `recording_thread` returns (time-out
or outside stop, then its own `stop_recording`), the file is the header
followed by the encodings of all captured frames, the buffer is empty and
the stream closed. -/
theorem no_frame_lost (d : Nat) (gps : Option Gps) (s0 : State) (start : Nat)
    (inputs : Nat → TickInput) (hclosed : s0.recording_output_stream.is_open = false) :
    (start_recording true true true d gps s0).recording_output_stream.file =
      header_bytes (d % 256) (gps_reading gps).1 (gps_reading gps).2.1 (gps_reading gps).2.2 ∧
    (∀ n l1 s1,
      recording_loop n inputs 0 (RecordingLocals.entry start)
        (start_recording true true true d gps s0) = RecordingRun.running l1 s1 →
      s1.recording_output_stream.file ++ encode_frames s1.recording_buffer =
        (start_recording true true true d gps s0).recording_output_stream.file ++
          encode_frames (captured_frames inputs 0 n)) ∧
    (∀ n c l1 s1,
      recording_loop n inputs 0 (RecordingLocals.entry start)
        (start_recording true true true d gps s0) = RecordingRun.exited c l1 s1 →
      s1.recording_output_stream.file ++ encode_frames s1.recording_buffer =
        (start_recording true true true d gps s0).recording_output_stream.file ++
          encode_frames (captured_frames inputs 0 c)) ∧
    (∀ s : State, s.recording_output_stream.ready →
      (flush_recording_buffer s).recording_output_stream.file =
        s.recording_output_stream.file ++ encode_frames s.recording_buffer ∧
      (flush_recording_buffer s).recording_buffer = []) ∧
    (∀ fuel c sf,
      recording_thread fuel start inputs (start_recording true true true d gps s0) =
        some (c, sf) →
      sf.recording_output_stream.file =
        (start_recording true true true d gps s0).recording_output_stream.file ++
          encode_frames (captured_frames inputs 0 c) ∧
      sf.recording_buffer = [] ∧ sf.recording_output_stream.is_open = false) := by
  have hstart := start_recording_ok d gps s0 hclosed
  have hinv : session_invariant (start_recording true true true d gps s0)
      (start_recording true true true d gps s0).recording_output_stream.file := by
    rw [hstart]
    exact ⟨by simp [encode_frames], Or.inl ⟨rfl, rfl, rfl, rfl⟩⟩
  refine ⟨by rw [hstart], ?_, ?_, ?_, ?_⟩
  · intro n l1 s1 he
    exact ((recording_loop_invariant inputs n 0 _ _ _ hinv).1 l1 s1 he).1
  · intro n c l1 s1 he
    exact ((recording_loop_invariant inputs n 0 _ _ _ hinv).2 c l1 s1 he).2.1
  · intro s hr
    exact ⟨(flush_ready s hr).1, (flush_ready s hr).2.2.1⟩
  · intro fuel c sf he
    unfold recording_thread at he
    cases hrun : recording_loop fuel inputs 0 (RecordingLocals.entry start)
        (start_recording true true true d gps s0) with
    | running l1 s1 => simp [hrun] at he
    | exited c1 l1 s1 =>
      simp only [hrun, Option.some.injEq, Prod.mk.injEq] at he
      obtain ⟨rfl, rfl⟩ := he
      exact stop_recording_invariant s1 _
        ((recording_loop_invariant inputs fuel 0 _ _ _ hinv).2 c1 l1 s1 hrun).2

set_option maxRecDepth 8000 in
/-- C14 at a session of duration 15 stopped from outside during the wait
of iteration 2: `recording_thread` returns after 3 captures and the file
is the header followed by the encodings of the 3 captured frames. -/
theorem no_frame_lost_witness :
    recording_thread 10 0 stopped_inputs
        (start_recording true true true 15 none State.initial) =
      some (3, stopped_session_end) ∧
    stopped_session_end.recording_output_stream.file =
      (start_recording true true true 15 none State.initial).recording_output_stream.file ++
        encode_frames (captured_frames stopped_inputs 0 3) ∧
    stopped_session_end.recording_buffer = [] ∧
    stopped_session_end.recording_output_stream.is_open = false :=
  ⟨by decide,
    (no_frame_lost 15 none State.initial 0 stopped_inputs rfl).2.2.2.2 10 3
      stopped_session_end (by decide)⟩

/-! ## C16: wake deadlines -/

/-- After `n` iterations under `timed_inputs` the loop of `recording_thread`,
if still running, holds in `beginFrame` the value given by `beginFrame_at`. -/
theorem recording_loop_beginFrame (start : Nat) (work : Nat → Nat) (n : Nat) :
    ∀ (k : Nat) (l l1 : RecordingLocals) (s s1 : State),
      l.beginFrame = beginFrame_at start work k % 2 ^ 32 →
      recording_loop n (timed_inputs start work) k l s = RecordingRun.running l1 s1 →
      l1.beginFrame = beginFrame_at start work (k + n) % 2 ^ 32 := by
  induction n with
  | zero =>
    intro k l l1 s s1 hb he
    simp only [recording_loop, RecordingRun.running.injEq] at he
    obtain ⟨rfl, -⟩ := he
    exact hb
  | succ n ih =>
    intro k l l1 s s1 hb he
    cases hit : recording_iteration (timed_inputs start work k) l s with
    | exited c0 l0 s0 => simp [recording_loop, hit] at he
    | running l0 s0 =>
      have hl0 : l0.beginFrame = beginFrame_at start work (k + 1) % 2 ^ 32 := by
        simp only [recording_iteration] at hit
        split at hit
        · simp at hit
        · split at hit
          · simp at hit
          · simp only [RecordingRun.running.injEq] at hit
            obtain ⟨rfl, -⟩ := hit
            rfl
      cases hrest : recording_loop n (timed_inputs start work) (k + 1) l0 s0 with
      | exited c2 l2 s2 => simp [recording_loop, hit, hrest] at he
      | running l2 s2 =>
        simp only [recording_loop, hit, hrest, RecordingRun.running.injEq] at he
        obtain ⟨rfl, -⟩ := he
        have := ih (k + 1) l0 l2 s0 s2 hl0 hrest
        rw [this]
        congr 2
        omega

/-- C16 as stated fails: when iteration 0 takes 8 ms, its wake deadline is
5 and the wake deadline of iteration 1 is 13, not 10; in the loop of
`recording_thread` the variable `beginFrame` is 8 after one iteration. -/
theorem wake_deadline_shifted :
    wake_deadline 0 overrun_work 0 = 5 ∧
    wake_deadline 0 overrun_work 1 = 13 ∧
    wake_deadline 0 overrun_work 2 = 18 ∧
    (recording_loop 1 (timed_inputs 0 overrun_work) 0 (RecordingLocals.entry 0)
      recording_session).locals.beginFrame = 8 := by
  decide

/-- C16, amended.  The wake deadline of an iteration is the time at which
the previous iteration woke up plus 5 ms: the previous deadline plus 5 when
the previous iteration finished its work before its deadline, the end of
its work plus 5 when it overran.  When no iteration before `k` takes more
than 5 ms, the `k`-th deadline is the first deadline plus `5 * k`.  The
loop of `recording_thread` holds the wake-up times in `beginFrame`. -/
theorem wake_deadlines (start : Nat) (work : Nat → Nat) :
    (∀ k, wake_deadline start work (k + 1) =
      max (beginFrame_at start work k + work k) (wake_deadline start work k) + 5) ∧
    (∀ k, (∀ j, j < k → work j ≤ 5) →
      wake_deadline start work k = wake_deadline start work 0 + 5 * k) ∧
    (∀ k, 5 < work k →
      wake_deadline start work (k + 1) = wake_deadline start work k + work k) ∧
    (∀ n l s s1,
      recording_loop n (timed_inputs start work) 0 (RecordingLocals.entry start) s =
        RecordingRun.running l s1 →
      l.beginFrame = beginFrame_at start work n % 2 ^ 32) := by
  refine ⟨?_, ?_, ?_, ?_⟩
  · intro k
    simp [wake_deadline, beginFrame_at, task_delay_until]
  · intro k
    induction k with
    | zero => intro _; rfl
    | succ k ih =>
      intro h
      have hk := ih (fun j hj => h j (by omega))
      have hw := h k (by omega)
      simp only [wake_deadline, beginFrame_at, task_delay_until] at hk ⊢
      omega
  · intro k hk
    simp only [wake_deadline, beginFrame_at, task_delay_until]
    omega
  · intro n l s s1 he
    have := recording_loop_beginFrame start work n 0 (RecordingLocals.entry start) l s s1
      (by simp [RecordingLocals.entry, beginFrame_at]) he
    simpa using this

/-- C16 amended, with every iteration taking 3 ms: the deadline of
iteration 4 is the first deadline plus 20. -/
theorem wake_deadlines_witness :
    wake_deadline 0 (fun _ => 3) 4 = wake_deadline 0 (fun _ => 3) 0 + 5 * 4 ∧
    wake_deadline 0 overrun_work 1 = wake_deadline 0 overrun_work 0 + overrun_work 0 :=
  ⟨(wake_deadlines 0 (fun _ => 3)).2.1 4 (fun _ _ => by decide),
   (wake_deadlines 0 overrun_work).2.2.1 0 (by decide)⟩

/-! ## C17: flush deadline -/

set_option maxRecDepth 100000 in
/-- C17 as stated fails: in a session entered at time 0 with ticks 5 ms
apart, the deadline is still 1000 at the top of iteration 201, that
iteration reads `now` = 1005 and flushes, and the flush moves the deadline
to 2005, not to 2000. -/
theorem flush_deadline_not_aligned :
    (RecordingLocals.entry 0).prev_millis = 1000 ∧
    (recording_loop 201 steady_inputs 0 (RecordingLocals.entry 0)
      (start_recording true true true 15 none State.initial)).locals =
      locals_before_first_flush ∧
    (steady_inputs 201).now = 1005 ∧
    (recording_loop 202 steady_inputs 0 (RecordingLocals.entry 0)
      (start_recording true true true 15 none State.initial)).locals.prev_millis = 2005 ∧
    (recording_loop 202 steady_inputs 0 (RecordingLocals.entry 0)
      (start_recording true true true 15 none State.initial)).state.recording_buffer = [] := by
  decide

/-- C17, amended.  The flush deadline starts at loop start time + 1000
(modulo `2 ^ 32`).  An iteration that does not end the session, with no
stop request from outside, flushes the buffer exactly when its `now` is
strictly greater than the deadline, and a flush sets the deadline to
`now + 1000` (modulo `2 ^ 32`): without wrap-around the new deadline is
more than 1000 ms after the old one. -/
theorem flush_deadline (start : Nat) (inp : TickInput) (l : RecordingLocals) (s : State)
    (hstop : s.stop_system = false) (hext : inp.external_stop = false)
    (hcont : ¬ (inp.now % 2 ^ 32 ≥
      (l.beginFrame + s.max_recording_time * 1000 % 2 ^ 32) % 2 ^ 32)) :
    (RecordingLocals.entry start).prev_millis = (start % 2 ^ 32 + 1000) % 2 ^ 32 ∧
    recording_iteration inp l s =
      RecordingRun.running
        { beginFrame := inp.wake % 2 ^ 32
          captureCount :=
            if inp.now % 2 ^ 32 > l.prev_millis then 0 else (l.captureCount + 1) % 2 ^ 32
          prev_millis :=
            if inp.now % 2 ^ 32 > l.prev_millis then (inp.now % 2 ^ 32 + 1000) % 2 ^ 32
            else l.prev_millis
          now := inp.now % 2 ^ 32 }
        (if inp.now % 2 ^ 32 > l.prev_millis then
          flush_recording_buffer (capture_controller inp.controller s)
         else capture_controller inp.controller s) ∧
    (inp.now % 2 ^ 32 > l.prev_millis → inp.now % 2 ^ 32 + 1000 < 2 ^ 32 →
      (recording_iteration inp l s).locals.prev_millis = inp.now % 2 ^ 32 + 1000 ∧
      (recording_iteration inp l s).locals.prev_millis > l.prev_millis + 1000) := by
  have hmain : recording_iteration inp l s =
      RecordingRun.running
        { beginFrame := inp.wake % 2 ^ 32
          captureCount :=
            if inp.now % 2 ^ 32 > l.prev_millis then 0 else (l.captureCount + 1) % 2 ^ 32
          prev_millis :=
            if inp.now % 2 ^ 32 > l.prev_millis then (inp.now % 2 ^ 32 + 1000) % 2 ^ 32
            else l.prev_millis
          now := inp.now % 2 ^ 32 }
        (if inp.now % 2 ^ 32 > l.prev_millis then
          flush_recording_buffer (capture_controller inp.controller s)
         else capture_controller inp.controller s) := by
    have hcont1 : ¬ (inp.now % 2 ^ 32 ≥
        (l.beginFrame + (capture_controller inp.controller s).max_recording_time * 1000
          % 2 ^ 32) % 2 ^ 32) := hcont
    simp only [recording_iteration, hstop, hext, Bool.false_eq_true, if_false, hcont1]
    by_cases hf : inp.now % 2 ^ 32 > l.prev_millis
    · simp only [hf, decide_True, if_true]
    · simp only [hf, decide_False, if_false, Bool.false_eq_true]
  refine ⟨rfl, hmain, ?_⟩
  intro hf hw
  have hp : (recording_iteration inp l s).locals.prev_millis = inp.now % 2 ^ 32 + 1000 := by
    rw [hmain]
    simp only [RecordingRun.locals, if_pos hf]
    exact Nat.mod_eq_of_lt hw
  rw [hp]
  exact ⟨rfl, by omega⟩

/-- C17 amended, at iteration 201 of a session entered at time 0 with
ticks 5 ms apart. -/
theorem flush_deadline_witness :
    (recording_iteration (steady_inputs 201) locals_before_first_flush
        recording_session).locals.prev_millis = (steady_inputs 201).now % 2 ^ 32 + 1000 ∧
    (recording_iteration (steady_inputs 201) locals_before_first_flush
        recording_session).locals.prev_millis >
      locals_before_first_flush.prev_millis + 1000 :=
  (flush_deadline 0 (steady_inputs 201) locals_before_first_flush recording_session rfl rfl
    (by decide)).2.2 (by decide) (by decide)

/-! ## C18: the load loop -/

/-- Reading `n` bytes from a good stream that holds at least `n`. -/
theorem IFStream.read_good_enough (bs dest : List Nat) (n : Nat) (hn : n ≤ bs.length) :
    (IFStream.good bs).read n dest = (IFStream.good (bs.drop n), bs.take n) := by
  simp [IFStream.read, IFStream.good, hn]

/-- After the header reads on a file of at least 25 bytes the stream is
good and positioned at offset 25. -/
theorem read_header_stream (file : List Nat) (u : HeaderVars) (hlen : 25 ≤ file.length) :
    (read_header (IFStream.good file) u).1 = IFStream.good (file.drop 25) := by
  unfold read_header
  simp only []
  rw [IFStream.read_good_enough file _ 1 (by omega)]
  simp only []
  rw [IFStream.read_good_enough _ _ 8 (by rw [List.length_drop]; omega)]
  simp only []
  rw [IFStream.read_good_enough _ _ 8 (by simp only [List.length_drop]; omega)]
  simp only []
  rw [IFStream.read_good_enough _ _ 8 (by simp only [List.length_drop]; omega)]
  simp [List.drop_drop]

/-- The load loop on a good stream holding `k` complete chunks and `r < 16`
more bytes: it pushes the `k` decoded chunks and then one more frame, made
of the `r` bytes and the old content of the last buffer. -/
theorem load_loop_chunks (raw : Nat → List Nat) (r : Nat) (hr : r < 16) (k : Nat) :
    ∀ (rest : List Nat) (i : Nat) (buf : List ControllerData) (fuel : Nat),
      rest.length = 16 * k + r → k + 2 ≤ fuel →
      load_loop fuel raw i (IFStream.good rest) buf =
        some ({ is_open := true, rest := [], eofbit := true, failbit := true },
          buf ++ (List.range k).map
              (fun j => chunk_to_ControllerData ((rest.drop (16 * j)).take 16)) ++
            [chunk_to_ControllerData (rest.drop (16 * k) ++ (raw (i + k)).drop r)]) := by
  induction k with
  | zero =>
    intro rest i buf fuel hlen hfuel
    obtain ⟨g, rfl⟩ : ∃ g, fuel = g + 2 := ⟨fuel - 2, by omega⟩
    have hshort : rest.length < 16 := by omega
    have hr0 : rest.length = r := by omega
    simp only [load_loop, IFStream.good, Bool.false_eq_true, if_false]
    have := IFStream.read_good_short rest (raw i) 16 hshort
    simp only [IFStream.good] at this
    simp [this, hr0]
  | succ k ih =>
    intro rest i buf fuel hlen hfuel
    obtain ⟨g, rfl⟩ : ∃ g, fuel = g + 1 := ⟨fuel - 1, by omega⟩
    have h16 : 16 ≤ rest.length := by omega
    have hread := IFStream.read_good_enough rest (raw i) 16 h16
    have hrec := ih (rest.drop 16) (i + 1) (buf ++ [chunk_to_ControllerData (rest.take 16)]) g
      (by rw [List.length_drop]; omega) (by omega)
    simp only [IFStream.good] at hread hrec
    simp only [load_loop, IFStream.good, Bool.false_eq_true, if_false, hread, hrec]
    have hf : ∀ j, 16 + 16 * j = 16 * (j + 1) := fun j => by omega
    have hi : i + 1 + k = i + (k + 1) := by omega
    simp only [List.range_succ_eq_map, List.map_cons, List.map_map, List.drop_drop,
      Function.comp_def, Nat.succ_eq_add_one, hf, hi, Nat.mul_zero, List.drop_zero,
      List.append_assoc, List.singleton_append, List.cons_append, List.nil_append]

/-- C18. The load loop of `begin_playback` tests end of file only before
each 16-byte read: on every file of `25 + 16 * k + r` bytes with `r < 16`,
and with fuel for `k + 2` tests, it pushes exactly `k + 1` frames onto
`playback_buffer`: the decodings of the `k` complete chunks in file order,
then one frame made of the `r` trailing bytes and the indeterminate rest of
the last buffer; on a file shorter than 25 bytes it pushes no frame. -/
theorem load_pushes_extra_frame (file : List Nat) (k r : Nat) (u : HeaderVars)
    (raw : Nat → List Nat) (s : State) (fuel : Nat)
    (hlen : file.length = 25 + 16 * k + r) (hr : r < 16) (hfuel : k + 2 ≤ fuel) :
    (∃ res, begin_playback fuel true (some file) u raw s = some res ∧
      res.state.playback_buffer =
        s.playback_buffer ++ (List.range k).map
            (fun j => chunk_to_ControllerData ((file.drop (25 + 16 * j)).take 16)) ++
          [chunk_to_ControllerData (file.drop (25 + 16 * k) ++ (raw k).drop r)] ∧
      res.state.playback_buffer.length = s.playback_buffer.length + (k + 1)) ∧
    (∀ short : List Nat, short.length < 25 →
      ∃ res, begin_playback fuel true (some short) u raw s = some res ∧
        res.state.playback_buffer = s.playback_buffer) := by
  constructor
  · have hstream := read_header_stream file u (by omega)
    have hloop := load_loop_chunks raw r hr k (file.drop 25) 0 s.playback_buffer fuel
      (by rw [List.length_drop]; omega) hfuel
    rw [begin_playback_opened, hstream, hloop]
    refine ⟨_, rfl, ?_, ?_⟩
    · simp only [List.drop_drop, Nat.zero_add]
    · simp only [List.length_append, List.length_map, List.length_range,
        List.length_singleton]
      omega
  · intro short hshort
    obtain ⟨g, rfl⟩ : ∃ g, fuel = g + 1 := ⟨fuel - 1, by omega⟩
    rw [begin_playback_opened]
    simp only [load_loop, read_header_eof short u hshort, if_true]
    exact ⟨_, rfl, rfl⟩

/-- C18 at the recording of `[sampleFrame, sampleFrame2]` (`k = 2`,
`r = 0`): three frames are pushed. -/
theorem load_pushes_extra_frame_witness :
    ∃ res, begin_playback 4 true (some (recorded_file [sampleFrame, sampleFrame2]))
        sampleVars sampleRaw State.initial = some res ∧
      res.state.playback_buffer.length = State.initial.playback_buffer.length + (2 + 1) :=
  match (load_pushes_extra_frame (recorded_file [sampleFrame, sampleFrame2]) 2 0 sampleVars
      sampleRaw State.initial 4 (by decide) (by decide) (by decide)).1 with
  | ⟨res, h1, _, h3⟩ => ⟨res, h1, h3⟩

/-! ## C19: the capture buffer is bounded -/

theorem stop_recording_buffer (s : State) (h : s.stop_system = false) :
    (stop_recording s).recording_buffer = [] := by
  simp [stop_recording, h, flush_recording_buffer]

/-- One iteration keeps `buffer_invariant` when its timestamp is 5 ms after
the previous one (`g = 0`), or, on an empty buffer, `5 - g` ms after it. -/
theorem recording_iteration_bound (slack g : Nat) (inp : TickInput) (l : RecordingLocals)
    (s : State) (hslack : slack ≤ 5) (hinv : buffer_invariant slack l s)
    (hgap : l.now + 5 ≤ inp.now % 2 ^ 32 + g) (hg : g ≤ slack)
    (hg0 : s.recording_buffer.length ≠ 0 → g = 0) :
    (∀ l1 s1, recording_iteration inp l s = RecordingRun.running l1 s1 →
      buffer_invariant slack l1 s1 ∧ l1.now = inp.now % 2 ^ 32) ∧
    (∀ c l1 s1, recording_iteration inp l s = RecordingRun.exited c l1 s1 →
      5 * s1.recording_buffer.length ≤ 1005 + slack) := by
  have hlen : 5 * s.recording_buffer.length ≤ 1000 + slack := by
    rcases hinv with ⟨h1, _⟩ | ⟨_, h1, h2⟩ <;> omega
  by_cases hstop : s.stop_system = true
  · constructor
    · intro l1 s1 he
      simp [recording_iteration, hstop] at he
    · intro c l1 s1 he
      simp only [recording_iteration, hstop, if_true, RecordingRun.exited.injEq] at he
      obtain ⟨-, -, rfl⟩ := he
      omega
  · have hstop0 : s.stop_system = false := by simpa using hstop
    have hcaplen : (capture_controller inp.controller s).recording_buffer.length =
        s.recording_buffer.length + 1 := by
      simp [capture_controller]
    constructor
    · intro l1 s1 he
      simp only [recording_iteration, hstop0, Bool.false_eq_true, if_false] at he
      split at he
      · simp at he
      · simp only [RecordingRun.running.injEq] at he
        obtain ⟨rfl, rfl⟩ := he
        refine ⟨?_, ?_⟩
        · by_cases hf : inp.now % 2 ^ 32 > l.prev_millis
          · left
            simp only [hf, decide_True, if_true]
            constructor
            · by_cases hx : inp.external_stop = true
              · simp only [hx, if_true]
                rw [stop_recording_buffer _ (by simp [flush_recording_buffer,
                  capture_controller, hstop0])]
                rfl
              · simp [hx, flush_recording_buffer]
            · show (inp.now % 2 ^ 32 + 5 * 200) % 2 ^ 32 ≤ inp.now % 2 ^ 32 + 1000
              omega
          · simp only [hf, decide_False, Bool.false_eq_true, if_false]
            by_cases hx : inp.external_stop = true
            · left
              simp only [hx, if_true]
              rw [stop_recording_buffer _ (by simp [capture_controller, hstop0])]
              refine ⟨rfl, ?_⟩
              show l.prev_millis ≤ inp.now % 2 ^ 32 + 1000
              rcases hinv with ⟨h1, h2⟩ | ⟨h0, h1, h2⟩
              · omega
              · have := hg0 (by omega)
                omega
            · right
              simp only [hx, Bool.false_eq_true, if_false]
              rw [hcaplen]
              show 1 ≤ s.recording_buffer.length + 1 ∧
                  5 * (s.recording_buffer.length + 1) + l.prev_millis ≤
                    inp.now % 2 ^ 32 + 1000 + slack ∧ inp.now % 2 ^ 32 ≤ l.prev_millis
              rcases hinv with ⟨h1, h2⟩ | ⟨h0, h1, h2⟩
              · omega
              · have := hg0 (by omega)
                omega
        · split <;> rfl
    · intro c l1 s1 he
      simp only [recording_iteration, hstop0, Bool.false_eq_true, if_false] at he
      split at he
      · simp only [RecordingRun.exited.injEq] at he
        obtain ⟨-, -, rfl⟩ := he
        rw [hcaplen]
        omega
      · simp at he

/-- The recording loop keeps `buffer_invariant` over `n` iterations whose
timestamps are at least 5 ms apart. -/
theorem recording_loop_bound (inputs : Nat → TickInput) (slack : Nat) (hslack : slack ≤ 5)
    (n : Nat) :
    ∀ (k g : Nat) (l : RecordingLocals) (s : State),
      buffer_invariant slack l s →
      (0 < n → l.now + 5 ≤ now32 inputs k + g) → g ≤ slack →
      (s.recording_buffer.length ≠ 0 → g = 0) →
      (∀ j, j + 1 < n → now32 inputs (k + j) + 5 ≤ now32 inputs (k + j + 1)) →
      (∀ l1 s1, recording_loop n inputs k l s = RecordingRun.running l1 s1 →
        5 * s1.recording_buffer.length ≤ 1000 + slack) ∧
      (∀ c l1 s1, recording_loop n inputs k l s = RecordingRun.exited c l1 s1 →
        5 * s1.recording_buffer.length ≤ 1005 + slack) := by
  induction n with
  | zero =>
    intro k g l s hinv _ _ _ _
    constructor
    · intro l1 s1 he
      simp only [recording_loop, RecordingRun.running.injEq] at he
      obtain ⟨-, rfl⟩ := he
      rcases hinv with ⟨h1, _⟩ | ⟨_, h1, h2⟩ <;> omega
    · intro c l1 s1 he
      simp [recording_loop] at he
  | succ n ih =>
    intro k g l s hinv hfirst hg hg0 hgap
    obtain ⟨hrun, hexit⟩ := recording_iteration_bound slack g (inputs k) l s hslack hinv
      (hfirst (by omega)) hg hg0
    cases hit : recording_iteration (inputs k) l s with
    | exited c0 l0 s0 =>
      constructor
      · intro l1 s1 he
        simp [recording_loop, hit] at he
      · intro c l1 s1 he
        simp only [recording_loop, hit, RecordingRun.exited.injEq] at he
        obtain ⟨-, -, rfl⟩ := he
        exact hexit c0 l0 s0 hit
    | running l0 s0 =>
      obtain ⟨hinv0, hnow0⟩ := hrun l0 s0 hit
      obtain ⟨ihrun, ihexit⟩ := ih (k + 1) 0 l0 s0 hinv0
        (fun hn => by
          have := hgap 0 (by omega)
          simp only [Nat.add_zero] at this
          rw [hnow0]
          exact this)
        (by omega) (fun _ => rfl)
        (fun j hj => by
          have := hgap (j + 1) (by omega)
          have e1 : k + (j + 1) = k + 1 + j := by omega
          rw [e1] at this
          exact this)
      cases hrest : recording_loop n inputs (k + 1) l0 s0 with
      | exited c2 l2 s2 =>
        constructor
        · intro l1 s1 he
          simp [recording_loop, hit, hrest] at he
        · intro c l1 s1 he
          simp only [recording_loop, hit, hrest, RecordingRun.exited.injEq] at he
          obtain ⟨-, -, rfl⟩ := he
          exact ihexit c2 l2 s2 hrest
      | running l2 s2 =>
        constructor
        · intro l1 s1 he
          simp only [recording_loop, hit, hrest, RecordingRun.running.injEq] at he
          obtain ⟨-, rfl⟩ := he
          exact ihrun l2 s2 hrest
        · intro c l1 s1 he
          simp [recording_loop, hit, hrest] at he

/-- C19. The capture buffer is bounded.  Run the loop of `recording_thread`
for any number `n` of iterations, entered at time `start` with an empty
buffer, the first timestamp `now` not before `start` and each later `now`
at least 5 ms after the previous one: at the top of every iteration the
buffer holds at most 201 frames, so at most 202 right after the capture,
and at most 202 when the loop leaves.  From a state right after a flush
(buffer empty, deadline `now + 1000`) the bounds are 200, 201 and 201. -/
theorem capture_buffer_bounded (inputs : Nat → TickInput) (n : Nat) :
    (∀ (start : Nat) (s0 : State), start < 2 ^ 32 → s0.recording_buffer = [] →
      (0 < n → start ≤ now32 inputs 0) →
      (∀ j, j + 1 < n → now32 inputs j + 5 ≤ now32 inputs (j + 1)) →
      (∀ l s, recording_loop n inputs 0 (RecordingLocals.entry start) s0 =
          RecordingRun.running l s →
        s.recording_buffer.length ≤ 201 ∧
        ∀ ctl, (capture_controller ctl s).recording_buffer.length ≤ 202) ∧
      (∀ c l s, recording_loop n inputs 0 (RecordingLocals.entry start) s0 =
          RecordingRun.exited c l s →
        s.recording_buffer.length ≤ 202)) ∧
    (∀ (k : Nat) (l : RecordingLocals) (s : State), s.recording_buffer = [] →
      l.prev_millis = (l.now + 1000) % 2 ^ 32 →
      (0 < n → l.now + 5 ≤ now32 inputs k) →
      (∀ j, j + 1 < n → now32 inputs (k + j) + 5 ≤ now32 inputs (k + j + 1)) →
      (∀ l1 s1, recording_loop n inputs k l s = RecordingRun.running l1 s1 →
        s1.recording_buffer.length ≤ 200 ∧
        ∀ ctl, (capture_controller ctl s1).recording_buffer.length ≤ 201) ∧
      (∀ c l1 s1, recording_loop n inputs k l s = RecordingRun.exited c l1 s1 →
        s1.recording_buffer.length ≤ 201)) := by
  constructor
  · intro start s0 hstart hbuf hfirst hgap
    have hmod : start % 2 ^ 32 = start := Nat.mod_eq_of_lt hstart
    have hinv : buffer_invariant 5 (RecordingLocals.entry start) s0 := by
      left
      refine ⟨by rw [hbuf]; rfl, ?_⟩
      show (start % 2 ^ 32 + 5 * 200) % 2 ^ 32 ≤ start % 2 ^ 32 + 1000
      omega
    obtain ⟨hrun, hexit⟩ := recording_loop_bound inputs 5 (by omega) n 0 5
      (RecordingLocals.entry start) s0 hinv
      (fun hn => by
        have := hfirst hn
        show start % 2 ^ 32 + 5 ≤ now32 inputs 0 + 5
        omega)
      (by omega) (fun h => absurd (by rw [hbuf]; rfl) h)
      (fun j hj => by
        have := hgap j hj
        simpa using this)
    constructor
    · intro l s he
      have := hrun l s he
      refine ⟨by omega, ?_⟩
      intro ctl
      simp only [capture_controller, List.length_append, List.length_singleton]
      omega
    · intro c l s he
      have := hexit c l s he
      omega
  · intro k l s hbuf hdead hfirst hgap
    have hinv : buffer_invariant 0 l s := by
      left
      refine ⟨by rw [hbuf]; rfl, ?_⟩
      rw [hdead]
      omega
    obtain ⟨hrun, hexit⟩ := recording_loop_bound inputs 0 (by omega) n k 0 l s hinv
      (fun hn => by
        have := hfirst hn
        omega)
      (by omega) (fun _ => rfl) hgap
    constructor
    · intro l1 s1 he
      have := hrun l1 s1 he
      refine ⟨by omega, ?_⟩
      intro ctl
      simp only [capture_controller, List.length_append, List.length_singleton]
      omega
    · intro c l1 s1 he
      have := hexit c l1 s1 he
      omega

/-- C19 at a session entered at time 0 with ticks exactly 5 ms apart, after
250 iterations. -/
theorem capture_buffer_bounded_witness :
    (recording_loop 250 steady_inputs 0 (RecordingLocals.entry 0)
      (start_recording true true true 15 none State.initial)).state.recording_buffer.length
      ≤ 202 := by
  have h := (capture_buffer_bounded steady_inputs 250).1 0
    (start_recording true true true 15 none State.initial) (by norm_num) rfl
    (fun _ => by simp [now32, steady_inputs])
    (fun j hj => by
      have e1 : 5 * j % 2 ^ 32 = 5 * j := Nat.mod_eq_of_lt (by omega)
      have e2 : 5 * (j + 1) % 2 ^ 32 = 5 * (j + 1) := Nat.mod_eq_of_lt (by omega)
      simp only [now32, steady_inputs, e1, e2]
      omega)
  cases hr : recording_loop 250 steady_inputs 0 (RecordingLocals.entry 0)
      (start_recording true true true 15 none State.initial) with
  | running l s => exact Nat.le_succ_of_le (h.1 l s hr).1
  | exited c l s => exact h.2 c l s hr

set_option maxRecDepth 100000 in
/-- The bound 202 is attained: with ticks exactly 5 ms apart the buffer
holds 201 frames at the top of iteration 201 and 202 right after its
capture; the flush of that iteration empties it. -/
theorem capture_buffer_bound_attained :
    (recording_loop 201 steady_inputs 0 (RecordingLocals.entry 0)
      (start_recording true true true 15 none
        State.initial)).state.recording_buffer.length = 201 ∧
    (capture_controller idle_controller
      (recording_loop 201 steady_inputs 0 (RecordingLocals.entry 0)
        (start_recording true true true 15 none
          State.initial)).state).recording_buffer.length = 202 ∧
    (recording_loop 202 steady_inputs 0 (RecordingLocals.entry 0)
      (start_recording true true true 15 none
        State.initial)).state.recording_buffer.length = 0 := by
  decide

end Recording
